import Mathlib

/-!
# sa_sphere: simulated annealing of points on the unit sphere

A shallow embedding of `vector.c`, `sphere.c` and `sa.c`.

Modelling conventions.

* A C `double` is a real number: every statement below is about the program
  read over the reals, not about IEEE-754 rounding.  Division is the total
  division of the reals (`x / 0 = 0`); the theorems that depend on a divisor say
  so by a hypothesis that it is not zero.
* A `struct vector_t *` together with an element count is a function
  `ℕ → vector_t` (the memory cells reachable from the base pointer); a store
  `p[i] = v` is `Function.update p i v`.
* A function that mutates its argument through a pointer returns the new value.
* The C library random generator is an oracle: the values returned by the calls
  of `drand48()`, `lrand48()` and of `normalRV()` are inputs of the model.
* An automatic variable that the source reads before writing it gets its
  indeterminate initial value from an explicit parameter.
* A loop without a syntactic bound takes a fuel argument and returns `none`
  when the fuel is used up.
-/

noncomputable section

namespace SaSphere

/-! ## vector.h / vector.c -/

/-- The `struct vector_t` of `vector.h`. -/
structure vector_t where
  x : ℝ
  y : ℝ
  z : ℝ

/-- An array of vectors addressed from its base pointer. -/
abbrev vector_array := ℕ → vector_t

/-- The function `vector_dotProduct` of `vector.c`. -/
def vector_dotProduct (x y : vector_t) : ℝ :=
  (x.x * y.x) + (x.y * y.y) + (x.z * y.z)

/-- The function `vector_copy` of `vector.c`: the new value of `*oldVector`. -/
def vector_copy (_oldVector newVector : vector_t) : vector_t :=
  { x := newVector.x, y := newVector.y, z := newVector.z }

/-- The function `vector_arrayCopy` of `vector.c`: the new contents of the array
`oldVector` after the loop `for (i = 0; i < arraySize; i++)`. -/
def vector_arrayCopy (oldVector newVector : vector_array) (arraySize : ℕ) : vector_array :=
  (List.range arraySize).foldl
    (fun old i => Function.update old i (vector_copy (old i) (newVector i))) oldVector

/-- The function `vector_normalise` of `vector.c`: the new value of `*vector`. -/
def vector_normalise (vector : vector_t) : vector_t :=
  let scale := 1 / Real.sqrt (vector_dotProduct vector vector)
  { x := vector.x * scale, y := vector.y * scale, z := vector.z * scale }

/-! ## sphere.c -/

/-- The function `getCoordinate` of `sphere.c`; `r` is the value returned by `drand48()`. -/
def getCoordinate (r : ℝ) : ℝ := 2.0 * r - 1.0

/-- The function `normalRV` of `sphere.c` (polar rejection method).  The stream `drand48`
lists the values returned by successive calls of `drand48()`, `c` is the position of the
next one, and the first argument bounds the number of rounds of the `do ... while`. -/
def normalRV (drand48 : ℕ → ℝ) : ℕ → ℕ → Option ℝ
  | 0, _ => none
  | fuel + 1, c =>
    let u := getCoordinate (drand48 c)
    let v := getCoordinate (drand48 (c + 1))
    let w := u * u + v * v
    if w ≥ 1.0 then normalRV drand48 fuel (c + 2)
    else some (u * Real.sqrt ((-2 * Real.log w) / w))

/-- The function `euclideanDistance` of `sphere.c`. -/
def euclideanDistance (pointA pointB : vector_t) : ℝ :=
  let dv : vector_t :=
    { x := pointA.x - pointB.x, y := pointA.y - pointB.y, z := pointA.z - pointB.z }
  Real.sqrt (vector_dotProduct dv dv)

/-- The function `distance` of `sphere.c`. -/
def distance (pointA pointB : vector_t) : ℝ :=
  euclideanDistance pointA pointB

/-- The statements of `sphere_getPoint` after its rejection loop, for the accepted pair
`x`, `y` of coordinates. -/
def sphere_getPoint_vector (x y : ℝ) : vector_t :=
  let x_squared := (x * x) + (y * y)
  let root := Real.sqrt (1 - (x * x) - (y * y))
  { x := 2 * x * root, y := 2 * y * root, z := 1 - 2 * x_squared }

/-- The function `sphere_getPoint` of `sphere.c` (Marsaglia 1972).  The stream `drand48`,
the position `c` and the fuel are as in `normalRV`. -/
def sphere_getPoint (drand48 : ℕ → ℝ) : ℕ → ℕ → Option vector_t
  | 0, _ => none
  | fuel + 1, c =>
    let x := getCoordinate (drand48 c)
    let y := getCoordinate (drand48 (c + 1))
    let x_squared := (x * x) + (y * y)
    if x_squared ≥ 1 then sphere_getPoint drand48 fuel (c + 2)
    else some (sphere_getPoint_vector x y)

/-- The constant `DBL_MAX` of `float.h`. -/
def DBL_MAX : ℝ := (2 - 2⁻¹ ^ 52) * 2 ^ 1023

/-- The local variables `dist_min`, `index_min_1`, `index_min_2` of `sphere_selectClosest`. -/
structure closest_t where
  dist_min : ℝ
  index_min_1 : ℤ
  index_min_2 : ℤ

/-- The function `sphere_selectClosest` of `sphere.c`: the pair written to `index_min[0]`,
`index_min[1]`.  The arguments `garbage_1`, `garbage_2` are the indeterminate initial
values of the uninitialised locals `index_min_1`, `index_min_2`. -/
def sphere_selectClosest (points : vector_array) (numberTrans : ℕ) (garbage_1 garbage_2 : ℤ) :
    ℤ × ℤ :=
  let r := (List.range (numberTrans - 1)).foldl
    (fun (st : closest_t) i =>
      (List.range' (i + 1) (numberTrans - (i + 1))).foldl
        (fun (st : closest_t) j =>
          let dist := distance (points i) (points j)
          if dist < st.dist_min then
            { dist_min := dist, index_min_1 := (i : ℤ), index_min_2 := (j : ℤ) }
          else st)
        st)
    { dist_min := DBL_MAX, index_min_1 := garbage_1, index_min_2 := garbage_2 }
  (r.index_min_1, r.index_min_2)

/-- The vector that `sphere_walk` builds and passes to `vector_normalise`.  The arguments
`n1`, `n2`, `n3` are the values returned by the three calls of `normalRV()`, in the order of
the calls. -/
def sphere_walk_vector (point : vector_t) (variance : ℝ) (n1 n2 n3 : ℝ) : vector_t :=
  let standardDeviation := Real.sqrt variance
  { x := point.x + (n1 * standardDeviation),
    y := point.y + (n2 * standardDeviation),
    z := point.z + (n3 * standardDeviation) }

/-- The function `sphere_walk` of `sphere.c`. -/
def sphere_walk (point : vector_t) (variance : ℝ) (n1 n2 n3 : ℝ) : vector_t :=
  vector_normalise (sphere_walk_vector point variance n1 n2 n3)

/-- The function `sphere_moveApart` of `sphere.c`: the new values of `*pointA`, `*pointB`. -/
def sphere_moveApart (pointA pointB : vector_t) (variance : ℝ) : vector_t × vector_t :=
  let u := 1 + variance
  let v1 : vector_t := { x := pointA.x, y := pointA.y, z := pointA.z }
  let v2 : vector_t := { x := pointB.x, y := pointB.y, z := pointB.z }
  let a : vector_t :=
    { x := v1.x + u * (v1.x - v2.x), y := v1.y + u * (v1.y - v2.y), z := v1.z + u * (v1.z - v2.z) }
  let b : vector_t :=
    { x := v1.x - u * (v1.x - v2.x), y := v1.y - u * (v1.y - v2.y), z := v1.z - u * (v1.z - v2.z) }
  (vector_normalise a, vector_normalise b)

/-- The function `sphere_rieszEnergy` of `sphere.c`. -/
def sphere_rieszEnergy (points : vector_array) (numberTrans : ℕ) : ℝ :=
  (List.range (numberTrans - 1)).foldl
    (fun energy i =>
      (List.range' (i + 1) (numberTrans - (i + 1))).foldl
        (fun energy j =>
          let vector : vector_t :=
            { x := (points i).x - (points j).x,
              y := (points i).y - (points j).y,
              z := (points i).z - (points j).z }
          energy + Real.log (1 / (vector_dotProduct vector vector)))
        energy)
    0.0

/-- The function `sphere_distance` of `sphere.c`. -/
def sphere_distance (points : vector_array) (numberTrans : ℕ) : ℝ :=
  (List.range (numberTrans - 1)).foldl
    (fun dist i =>
      (List.range' (i + 1) (numberTrans - (i + 1))).foldl
        (fun dist j => dist + distance (points i) (points j))
        dist)
    0.0

/-! ## global.h / sa.h / sa.c -/

/-- The `struct globalArgs_t` of `global.h`.  The counts `iter` and `n` are natural numbers:
a negative `int` makes every loop over them empty, as `0` does. -/
structure globalArgs_t where
  seed : ℤ
  uniform : ℤ
  iter : ℕ
  n : ℕ
  temp : ℝ
  damping : ℝ

/-- The constant `T_MIN` of `sa.h`. -/
def T_MIN : ℝ := 0.1

/-- The constant `BOLTZMANN_CONSTANT` of `sa.h`. -/
def BOLTZMANN_CONSTANT : ℝ := 1.0

/-- The function `selectPoint` of `sa.c`; `r` is the value returned by `lrand48()`. -/
def selectPoint (r : ℕ) (number : ℕ) : ℕ := r % number

/-- The function `anneal` of `sa.c`: the new value of `*temperature`. -/
def anneal (temperature damping : ℝ) : ℝ := damping * temperature

/-- The conversion of a `double` to `int` (truncation toward zero), which C applies to the
argument of `abs`, declared `int abs(int)` in `stdlib.h`. -/
def double_to_int (d : ℝ) : ℤ := if 0 ≤ d then ⌊d⌋ else ⌈d⌉

/-- The function `int abs(int)` of `stdlib.h`. -/
def abs_int (i : ℤ) : ℤ := if i < 0 then -i else i

/-- The expression assigned to `expo` in the three annealing functions:
`exp(-abs(delta) / ((double) BOLTZMANN_CONSTANT * temperature))`. -/
def expo (delta temperature : ℝ) : ℝ :=
  Real.exp (((-(abs_int (double_to_int delta)) : ℤ) : ℝ) / (BOLTZMANN_CONSTANT * temperature))

/-- The values returned by the random generator during one run of an annealing function. -/
structure rand_t where
  /-- The value returned by `lrand48()` in the call of `selectPoint` of outer round `lvl`. -/
  lrand48 : ℕ → ℕ
  /-- The value returned by the `k`-th call of `normalRV()` of the run. -/
  normalRV : ℕ → ℝ
  /-- The value returned by `drand48()` in the acceptance test of the inner iteration whose
  counter `iteration` has the given value, when that call is reached. -/
  drand48 : ℕ → ℝ

/-- One line written by `logging_logSim`. -/
structure sim_record where
  iteration : ℕ
  bestDistance : ℝ
  deltaDistance : ℝ
  temperature : ℝ
  variance : ℝ
  accepted : ℤ

/-- The indeterminate initial values of the automatic variables that the annealing functions
read, or may read, before writing them. -/
structure stack_t where
  new_points : vector_array
  best_points : vector_array
  cur : ℝ
  v_new_0 : vector_t
  v_new_1 : vector_t
  index_min_1 : ℤ
  index_min_2 : ℤ

/-- The variables of `sa_distance` and of `sa_closeness` that live across iterations, and the
lines written so far by `logging_logSim`. -/
structure sa_vars where
  points : vector_array
  new_points : vector_array
  best_points : vector_array
  distance_best : ℝ
  distance_cur : ℝ
  temperature : ℝ
  iteration : ℕ
  log : List sim_record

/-- The body of the inner `for` loop of `sa_distance`. -/
def sa_distance_iteration (n index : ℕ) (variance : ℝ) (rand : rand_t) (s : sa_vars) : sa_vars :=
  let v_new := sphere_walk (s.points index) (variance * variance)
    (rand.normalRV (3 * s.iteration)) (rand.normalRV (3 * s.iteration + 1))
    (rand.normalRV (3 * s.iteration + 2))
  let new_points := Function.update s.new_points index (vector_copy (s.new_points index) v_new)
  let distance_old := sphere_distance s.points n
  let distance_new := sphere_distance new_points n
  let distance_delta := distance_new - distance_old
  let expo := expo distance_delta s.temperature
  if distance_new > distance_old then
    let points := Function.update s.points index (vector_copy (s.points index) v_new)
    if s.distance_best < distance_new then
      { points := points, new_points := new_points,
        best_points := vector_arrayCopy s.best_points points n,
        distance_best := distance_new, distance_cur := distance_new,
        temperature := s.temperature, iteration := s.iteration + 1,
        log := s.log ++ [⟨s.iteration, distance_new, distance_delta, s.temperature, variance, 1⟩] }
    else
      { points := points, new_points := new_points, best_points := s.best_points,
        distance_best := s.distance_best, distance_cur := distance_new,
        temperature := s.temperature, iteration := s.iteration + 1,
        log := s.log ++ [⟨s.iteration, distance_new, distance_delta, s.temperature, variance, 1⟩] }
  else if rand.drand48 s.iteration < expo then
    { points := Function.update s.points index (vector_copy (s.points index) v_new),
      new_points := new_points, best_points := s.best_points,
      distance_best := s.distance_best, distance_cur := distance_old,
      temperature := s.temperature, iteration := s.iteration + 1,
      log := s.log ++ [⟨s.iteration, distance_old, distance_delta, s.temperature, variance, 1⟩] }
  else
    { points := s.points, new_points := new_points, best_points := s.best_points,
      distance_best := s.distance_best, distance_cur := s.distance_cur,
      temperature := s.temperature, iteration := s.iteration + 1,
      log := s.log ++
        [⟨s.iteration, s.distance_cur, distance_delta, s.temperature, variance, 0⟩] }

/-- The body of the `do ... while` loop of `sa_distance`, in outer round `lvl`. -/
def sa_distance_round (globalArgs : globalArgs_t) (rand : rand_t) (lvl : ℕ) (s : sa_vars) :
    sa_vars :=
  let index := selectPoint (rand.lrand48 lvl) globalArgs.n
  let variance := 0.5 * (1 - Real.exp (-0.5 * s.temperature))
  let s1 := (List.range globalArgs.iter).foldl
    (fun s _ => sa_distance_iteration globalArgs.n index variance rand s) s
  { s1 with temperature := anneal s1.temperature globalArgs.damping }

/-- The `do ... while (temperature > T_MIN)` loop of `sa_distance`, from outer round `lvl`
on, for at most `fuel` rounds. -/
def sa_distance_loop (globalArgs : globalArgs_t) (rand : rand_t) : ℕ → ℕ → sa_vars → Option sa_vars
  | 0, _, _ => none
  | fuel + 1, lvl, s =>
    let s1 := sa_distance_round globalArgs rand lvl s
    if s1.temperature > T_MIN then sa_distance_loop globalArgs rand fuel (lvl + 1) s1
    else some s1

/-- The variables of `sa_distance` and of `sa_closeness` when the `do ... while` loop is
entered. -/
def sa_init (points : vector_array) (globalArgs : globalArgs_t) (stack : stack_t) : sa_vars :=
  { points := points,
    new_points := vector_arrayCopy stack.new_points points globalArgs.n,
    best_points := stack.best_points,
    distance_best := 0.0, distance_cur := stack.cur,
    temperature := globalArgs.temp, iteration := 0, log := [] }

/-- The function `sa_distance` of `sa.c`: the variables when the `do ... while` loop is left. -/
def sa_distance (points : vector_array) (globalArgs : globalArgs_t) (stack : stack_t)
    (rand : rand_t) (fuel : ℕ) : Option sa_vars :=
  sa_distance_loop globalArgs rand fuel 0 (sa_init points globalArgs stack)

/-- The vectors that the final loop of an annealing function passes to `logging_logBest`. -/
def logged_best (best_points : vector_array) (n : ℕ) : List vector_t :=
  (List.range n).map best_points

/-- The body of the inner `for` loop of `sa_closeness`.  The array `v_new` is never written
by `sa_closeness`: `v_new_0`, `v_new_1` are its indeterminate contents. -/
def sa_closeness_iteration (n : ℕ) (index_min : ℤ × ℤ) (variance : ℝ) (v_new_0 v_new_1 : vector_t)
    (rand : rand_t) (s : sa_vars) : sa_vars :=
  let i0 := index_min.1.toNat
  let i1 := index_min.2.toNat
  let copied := vector_arrayCopy s.new_points s.points n
  let moved := sphere_moveApart (copied i0) (copied i1) variance
  let new_points := Function.update (Function.update copied i0 moved.1) i1 moved.2
  let distance_old := sphere_distance s.points n
  let distance_new := sphere_distance new_points n
  let distance_delta := distance_new - distance_old
  let expo := expo distance_delta s.temperature
  if distance_new > distance_old then
    let points := Function.update
      (Function.update s.points i0 (vector_copy (s.points i0) v_new_0)) i1
      (vector_copy (s.points i1) v_new_1)
    if s.distance_best < distance_new then
      { points := points, new_points := new_points,
        best_points := vector_arrayCopy s.best_points points n,
        distance_best := distance_new, distance_cur := distance_new,
        temperature := s.temperature, iteration := s.iteration + 1,
        log := s.log ++ [⟨s.iteration, distance_new, distance_delta, s.temperature, variance, 1⟩] }
    else
      { points := points, new_points := new_points, best_points := s.best_points,
        distance_best := s.distance_best, distance_cur := distance_new,
        temperature := s.temperature, iteration := s.iteration + 1,
        log := s.log ++ [⟨s.iteration, distance_new, distance_delta, s.temperature, variance, 1⟩] }
  else if rand.drand48 s.iteration < expo then
    { points := Function.update
        (Function.update s.points i0 (vector_copy (s.points i0) v_new_0)) i1
        (vector_copy (s.points i1) v_new_1),
      new_points := new_points, best_points := s.best_points,
      distance_best := s.distance_best, distance_cur := distance_old,
      temperature := s.temperature, iteration := s.iteration + 1,
      log := s.log ++ [⟨s.iteration, distance_old, distance_delta, s.temperature, variance, 1⟩] }
  else
    { points := s.points, new_points := new_points, best_points := s.best_points,
      distance_best := s.distance_best, distance_cur := s.distance_cur,
      temperature := s.temperature, iteration := s.iteration + 1,
      log := s.log ++
        [⟨s.iteration, s.distance_cur, distance_delta, s.temperature, variance, 0⟩] }

/-- The body of the `do ... while` loop of `sa_closeness`. -/
def sa_closeness_round (globalArgs : globalArgs_t) (stack : stack_t) (rand : rand_t)
    (s : sa_vars) : sa_vars :=
  let index_min := sphere_selectClosest s.points globalArgs.n stack.index_min_1 stack.index_min_2
  let variance := 0.01
  let s1 := (List.range globalArgs.iter).foldl
    (fun s _ =>
      sa_closeness_iteration globalArgs.n index_min variance stack.v_new_0 stack.v_new_1 rand s) s
  { s1 with temperature := anneal s1.temperature globalArgs.damping }

/-- The `do ... while (temperature > T_MIN)` loop of `sa_closeness`, for at most `fuel`
rounds. -/
def sa_closeness_loop (globalArgs : globalArgs_t) (stack : stack_t) (rand : rand_t) :
    ℕ → sa_vars → Option sa_vars
  | 0, _ => none
  | fuel + 1, s =>
    let s1 := sa_closeness_round globalArgs stack rand s
    if s1.temperature > T_MIN then sa_closeness_loop globalArgs stack rand fuel s1
    else some s1

/-- The function `sa_closeness` of `sa.c`: the variables when the `do ... while` loop is
left. -/
def sa_closeness (points : vector_array) (globalArgs : globalArgs_t) (stack : stack_t)
    (rand : rand_t) (fuel : ℕ) : Option sa_vars :=
  sa_closeness_loop globalArgs stack rand fuel (sa_init points globalArgs stack)

/-- The variables of `sa_energy` that live across iterations, and the lines written so far
by `logging_logSim`. -/
structure sa_energy_vars where
  points : vector_array
  new_points : vector_array
  best_points : vector_array
  energy_best : ℝ
  energy_cur : ℝ
  temperature : ℝ
  iteration : ℕ
  log : List sim_record

/-- The body of the inner `for` loop of `sa_energy`. -/
def sa_energy_iteration (n index : ℕ) (variance : ℝ) (rand : rand_t) (s : sa_energy_vars) :
    sa_energy_vars :=
  let v_new := sphere_walk (s.points index) variance
    (rand.normalRV (3 * s.iteration)) (rand.normalRV (3 * s.iteration + 1))
    (rand.normalRV (3 * s.iteration + 2))
  let new_points := Function.update s.new_points index (vector_copy (s.new_points index) v_new)
  let energy_old := sphere_rieszEnergy s.points n
  let energy_new := sphere_rieszEnergy new_points n
  let energy_delta := energy_new - energy_old
  let expo := expo energy_delta s.temperature
  if energy_new < energy_old then
    let points := Function.update s.points index (vector_copy (s.points index) v_new)
    if s.energy_best > energy_new then
      { points := points, new_points := new_points,
        best_points := vector_arrayCopy s.best_points points n,
        energy_best := energy_new, energy_cur := energy_new,
        temperature := s.temperature, iteration := s.iteration + 1,
        log := s.log ++ [⟨s.iteration, energy_new, energy_delta, s.temperature, variance, 1⟩] }
    else
      { points := points, new_points := new_points, best_points := s.best_points,
        energy_best := s.energy_best, energy_cur := energy_new,
        temperature := s.temperature, iteration := s.iteration + 1,
        log := s.log ++ [⟨s.iteration, energy_new, energy_delta, s.temperature, variance, 1⟩] }
  else if rand.drand48 s.iteration < expo then
    { points := Function.update s.points index (vector_copy (s.points index) v_new),
      new_points := new_points, best_points := s.best_points,
      energy_best := s.energy_best, energy_cur := energy_old,
      temperature := s.temperature, iteration := s.iteration + 1,
      log := s.log ++ [⟨s.iteration, energy_old, energy_delta, s.temperature, variance, 1⟩] }
  else
    { points := s.points, new_points := new_points, best_points := s.best_points,
      energy_best := s.energy_best, energy_cur := s.energy_cur,
      temperature := s.temperature, iteration := s.iteration + 1,
      log := s.log ++
        [⟨s.iteration, s.energy_cur, energy_delta, s.temperature, variance, 0⟩] }

/-- The body of the `do ... while` loop of `sa_energy`, in outer round `lvl`. -/
def sa_energy_round (globalArgs : globalArgs_t) (rand : rand_t) (lvl : ℕ) (s : sa_energy_vars) :
    sa_energy_vars :=
  let index := selectPoint (rand.lrand48 lvl) globalArgs.n
  let variance := 1 - Real.exp (-0.5 * s.temperature)
  let s1 := (List.range globalArgs.iter).foldl
    (fun s _ => sa_energy_iteration globalArgs.n index variance rand s) s
  { s1 with temperature := anneal s1.temperature globalArgs.damping }

/-- The `do ... while (temperature > T_MIN)` loop of `sa_energy`, from outer round `lvl` on,
for at most `fuel` rounds. -/
def sa_energy_loop (globalArgs : globalArgs_t) (rand : rand_t) :
    ℕ → ℕ → sa_energy_vars → Option sa_energy_vars
  | 0, _, _ => none
  | fuel + 1, lvl, s =>
    let s1 := sa_energy_round globalArgs rand lvl s
    if s1.temperature > T_MIN then sa_energy_loop globalArgs rand fuel (lvl + 1) s1
    else some s1

/-- The variables of `sa_energy` when the `do ... while` loop is entered. -/
def sa_energy_init (points : vector_array) (globalArgs : globalArgs_t) (stack : stack_t) :
    sa_energy_vars :=
  { points := points,
    new_points := vector_arrayCopy stack.new_points points globalArgs.n,
    best_points := stack.best_points,
    energy_best := DBL_MAX, energy_cur := stack.cur,
    temperature := globalArgs.temp, iteration := 0, log := [] }

/-- The Euclidean chord distance `‖a − b‖` of the specification. -/
def chord_distance (a b : vector_t) : ℝ :=
  Real.sqrt ((a.x - b.x) ^ 2 + (a.y - b.y) ^ 2 + (a.z - b.z) ^ 2)

/-- The operation `pairwise_sum_distance` as the specification words it: the sum over all
unordered index pairs `i < j < n` of the chord distance `‖p_i − p_j‖`. -/
def pairwise_sum_distance (config : vector_array) (n : ℕ) : ℝ :=
  ∑ p in (Finset.range n ×ˢ Finset.range n).filter (fun p => p.1 < p.2),
    chord_distance (config p.1) (config p.2)

/-- The operation `riesz_energy` as the specification words it: the sum over all index pairs
`i < j < n` of `log(1 / ‖p_i − p_j‖²)`. -/
def riesz_energy (config : vector_array) (n : ℕ) : ℝ :=
  ∑ p in (Finset.range n ×ˢ Finset.range n).filter (fun p => p.1 < p.2),
    Real.log (1 / (chord_distance (config p.1) (config p.2)) ^ 2)

/-- The image of the vector `v` under the linear map with matrix `R`. -/
def rotate (R : Matrix (Fin 3) (Fin 3) ℝ) (v : vector_t) : vector_t :=
  { x := R 0 0 * v.x + R 0 1 * v.y + R 0 2 * v.z,
    y := R 1 0 * v.x + R 1 1 * v.y + R 1 2 * v.z,
    z := R 2 0 * v.x + R 2 1 * v.y + R 2 2 * v.z }

/-! ## The value proposed and the candidate array of an inner iteration -/

/-- The value `v_new` computed by an inner iteration of `sa_distance` entered with the
variables `s`. -/
def sa_distance_v_new (index : ℕ) (variance : ℝ) (rand : rand_t) (s : sa_vars) : vector_t :=
  sphere_walk (s.points index) (variance * variance)
    (rand.normalRV (3 * s.iteration)) (rand.normalRV (3 * s.iteration + 1))
    (rand.normalRV (3 * s.iteration + 2))

/-- The array `new_points` after the statement `vector_copy(&new_points[index], &v_new)` of
an inner iteration of `sa_distance` entered with the variables `s`. -/
def sa_distance_new_points (index : ℕ) (variance : ℝ) (rand : rand_t) (s : sa_vars) :
    vector_array :=
  Function.update s.new_points index (sa_distance_v_new index variance rand s)

/-! ## Concrete runs -/

/-- Run parameters: two points, two inner iterations per temperature, initial temperature
`1`, damping `1/20`, so that the temperature after the first round is `0.05 ≤ T_MIN`. -/
def demo_args : globalArgs_t :=
  { seed := 12345, uniform := 1, iter := 2, n := 2, temp := 1, damping := 1 / 20 }

/-- The parameters of `demo_args` with a single point. -/
def demo_args_single : globalArgs_t :=
  { seed := 12345, uniform := 1, iter := 2, n := 1, temp := 1, damping := 1 / 20 }

/-- The antipodal pair `(0, -1, 0)`, `(0, 1, 0)`. -/
def demo_points : vector_array := fun i => if i = 0 then ⟨0, -1, 0⟩ else ⟨0, 1, 0⟩

/-- The single point `(1, 0, 0)`. -/
def demo_point_single : vector_array := fun _ => ⟨1, 0, 0⟩

/-- A stack whose indeterminate cells all hold zero. -/
def demo_stack : stack_t :=
  { new_points := fun _ => ⟨0, 0, 0⟩, best_points := fun _ => ⟨0, 0, 0⟩, cur := 0,
    v_new_0 := ⟨0, 0, 0⟩, v_new_1 := ⟨0, 0, 0⟩, index_min_1 := 0, index_min_2 := 0 }

/-- The value of `variance` that `sa_distance` computes at temperature `1`. -/
def demo_sigma : ℝ := 0.5 * (1 - Real.exp (-0.5 * 1))

/-- Random draws: `lrand48()` returns `0`, the acceptance draws are `0`, and the six calls of
`normalRV()` of the first two inner iterations return `1/σ, 1/σ, 0` and
`-1/(5σ), -3/(5σ), 0`, where `σ` is `demo_sigma`. -/
def demo_rand : rand_t :=
  { lrand48 := fun _ => 0,
    normalRV := fun k =>
      if k = 0 then 1 / demo_sigma else if k = 1 then 1 / demo_sigma
      else if k = 3 then -1 / (5 * demo_sigma) else if k = 4 then -3 / (5 * demo_sigma) else 0,
    drand48 := fun _ => 0 }

/-- The variables of `sa_distance` on entry of the loop, for the antipodal pair. -/
def demo_s0 : sa_vars := sa_init demo_points demo_args demo_stack

/-- The variables after the first inner iteration of that run. -/
def demo_s1 : sa_vars := sa_distance_iteration 2 0 demo_sigma demo_rand demo_s0

/-- The variables after the second inner iteration of that run. -/
def demo_s2 : sa_vars := sa_distance_iteration 2 0 demo_sigma demo_rand demo_s1

/-! ## Further operations as the specification words them, and parts of source functions -/

/-- The vectors that `sphere_moveApart` has stored in `*pointA` and `*pointB` when it calls
`vector_normalise`. -/
def sphere_moveApart_vectors (pointA pointB : vector_t) (variance : ℝ) : vector_t × vector_t :=
  let u := 1 + variance
  let v1 : vector_t := { x := pointA.x, y := pointA.y, z := pointA.z }
  let v2 : vector_t := { x := pointB.x, y := pointB.y, z := pointB.z }
  ({ x := v1.x + u * (v1.x - v2.x), y := v1.y + u * (v1.y - v2.y), z := v1.z + u * (v1.z - v2.z) },
    { x := v1.x - u * (v1.x - v2.x), y := v1.y - u * (v1.y - v2.y),
      z := v1.z - u * (v1.z - v2.z) })

/-- The operation `move_apart` as the specification words it, before the renormalisation:
`A' = v1 + (1 + variance)(v1 − v2)` and `B' = v2 − (1 + variance)(v1 − v2)`. -/
def move_apart_vectors (v1 v2 : vector_t) (variance : ℝ) : vector_t × vector_t :=
  ({ x := v1.x + (1 + variance) * (v1.x - v2.x), y := v1.y + (1 + variance) * (v1.y - v2.y),
      z := v1.z + (1 + variance) * (v1.z - v2.z) },
    { x := v2.x - (1 + variance) * (v1.x - v2.x), y := v2.y - (1 + variance) * (v1.y - v2.y),
      z := v2.z - (1 + variance) * (v1.z - v2.z) })

/-- The operation `move_apart` as the specification words it: both vectors of
`move_apart_vectors`, renormalised. -/
def move_apart (v1 v2 : vector_t) (variance : ℝ) : vector_t × vector_t :=
  (vector_normalise (move_apart_vectors v1 v2 variance).1,
    vector_normalise (move_apart_vectors v1 v2 variance).2)

/-- The value that `sa_distance` assigns to `variance` at the given temperature. -/
def sa_distance_variance (temperature : ℝ) : ℝ := 0.5 * (1 - Real.exp (-0.5 * temperature))

/-- The second argument, `variance * variance`, of the call of `sphere_walk` in
`sa_distance` at the given temperature. -/
def sa_distance_walk_variance (temperature : ℝ) : ℝ :=
  sa_distance_variance temperature * sa_distance_variance temperature

/-! ## The loop invariant of the closest-pair scan -/

/-- The index pairs `k < l < n` that the double loop of `sphere_selectClosest` has visited
when it reaches the pair `(i, J)`. -/
def scanned (n i J k l : ℕ) : Prop := k < l ∧ l < n ∧ (k < i ∨ (k = i ∧ l < J))

/-- The loop invariant of `sphere_selectClosest` for the set `S` of index pairs visited so
far: `dist_min` is a lower bound of the distances over `S`, and either nothing was visited and
the locals have their initial values, or the locals hold a visited pair, its distance, and
every visited pair before it in scan order is strictly farther apart. -/
def closest_inv (points : vector_array) (g1 g2 : ℤ) (S : ℕ → ℕ → Prop) (st : closest_t) : Prop :=
  (∀ k l, S k l → st.dist_min ≤ distance (points k) (points l)) ∧
    ((st = ⟨DBL_MAX, g1, g2⟩ ∧ ∀ k l, ¬ S k l) ∨
      ∃ a b : ℕ, S a b ∧ st = ⟨distance (points a) (points b), (a : ℤ), (b : ℤ)⟩ ∧
        ∀ k l, S k l → (k < a ∨ (k = a ∧ l < b)) →
          distance (points a) (points b) < distance (points k) (points l))

/-- Three unit points, pairwise at distance `√2`: `(1, 0, 0)`, `(0, 1, 0)`, `(0, 0, 1)`. -/
def demo_triple : vector_array :=
  fun i => if i = 0 then ⟨1, 0, 0⟩ else if i = 1 then ⟨0, 1, 0⟩ else ⟨0, 0, 1⟩

/-- The value `v_new` computed by an inner iteration of `sa_energy` entered with the
variables `s`. -/
def sa_energy_v_new (index : ℕ) (variance : ℝ) (rand : rand_t) (s : sa_energy_vars) : vector_t :=
  sphere_walk (s.points index) variance
    (rand.normalRV (3 * s.iteration)) (rand.normalRV (3 * s.iteration + 1))
    (rand.normalRV (3 * s.iteration + 2))

/-- The array `new_points` after the statement `vector_copy(&new_points[index], &v_new)` of
an inner iteration of `sa_energy` entered with the variables `s`. -/
def sa_energy_new_points (index : ℕ) (variance : ℝ) (rand : rand_t) (s : sa_energy_vars) :
    vector_array :=
  Function.update s.new_points index (sa_energy_v_new index variance rand s)

/-- Run parameters: two points, one inner iteration per temperature, initial temperature
`1`, damping `3/10`, so that the temperatures of the rounds are `1` and `0.3` and the loop
is left at `0.09 ≤ T_MIN`. -/
def stale_args : globalArgs_t :=
  { seed := 12345, uniform := 1, iter := 1, n := 2, temp := 1, damping := 3 / 10 }

/-- The pair `(1, 0, 0)`, `(0, 1, 0)`, at distance `√2`. -/
def stale_points : vector_array := fun i => if i = 0 then ⟨1, 0, 0⟩ else ⟨0, 1, 0⟩

/-- The value of `variance` that `sa_distance` computes in the second round of that run. -/
def stale_sigma : ℝ := sa_distance_variance (anneal 1 (3 / 10))

/-- Random draws: `lrand48()` returns `0` in the first round and `1` in the second, the
acceptance draws are `1/2`, and the six calls of `normalRV()` return `-1/σ, 1/σ, 0` and
`0, -2/σ', 0`, where `σ` is `demo_sigma` and `σ'` is `stale_sigma`. -/
def stale_rand : rand_t :=
  { lrand48 := fun lvl => lvl,
    normalRV := fun k =>
      if k = 0 then -1 / demo_sigma else if k = 1 then 1 / demo_sigma
      else if k = 4 then -2 / stale_sigma else 0,
    drand48 := fun _ => 1 / 2 }

/-- The variables of `sa_distance` on entry of the loop in that run. -/
def stale_s0 : sa_vars := sa_init stale_points stale_args demo_stack

/-- The variables after the inner iteration of the first round. -/
def stale_i1 : sa_vars := sa_distance_iteration 2 0 demo_sigma stale_rand stale_s0

/-- The variables after the first round. -/
def stale_s1 : sa_vars := sa_distance_round stale_args stale_rand 0 stale_s0

/-- Run parameters for `sa_closeness`: two points, one inner iteration per temperature,
initial temperature `1`, damping `1/20`. -/
def closeness_args : globalArgs_t :=
  { seed := 12345, uniform := 1, iter := 1, n := 2, temp := 1, damping := 1 / 20 }

/-! ## Basic facts about the vector primitives -/

theorem vector_copy_eq (o v : vector_t) : vector_copy o v = v := rfl

theorem vector_arrayCopy_apply (o v : vector_array) (n i : ℕ) :
    vector_arrayCopy o v n i = if i < n then v i else o i := by
  unfold vector_arrayCopy
  induction n with
  | zero => simp
  | succ n ih =>
    rw [List.range_succ, List.foldl_append]
    simp only [List.foldl_cons, List.foldl_nil]
    by_cases h : i = n
    · subst h
      simp [vector_copy_eq]
    · rw [Function.update_noteq h, ih]
      by_cases h1 : i < n
      · simp [h1, Nat.lt_succ_of_lt h1]
      · have h2 : ¬ i < n + 1 := by omega
        simp [h1, h2]

theorem vector_dotProduct_self_nonneg (v : vector_t) : 0 ≤ vector_dotProduct v v := by
  unfold vector_dotProduct
  nlinarith [mul_self_nonneg v.x, mul_self_nonneg v.y, mul_self_nonneg v.z]

theorem vector_dotProduct_self_eq_zero (v : vector_t) :
    vector_dotProduct v v = 0 ↔ v = ⟨0, 0, 0⟩ := by
  constructor
  · intro h
    unfold vector_dotProduct at h
    have hx : v.x = 0 := by
      nlinarith [mul_self_nonneg v.x, mul_self_nonneg v.y, mul_self_nonneg v.z]
    have hy : v.y = 0 := by
      nlinarith [mul_self_nonneg v.x, mul_self_nonneg v.y, mul_self_nonneg v.z]
    have hz : v.z = 0 := by
      nlinarith [mul_self_nonneg v.x, mul_self_nonneg v.y, mul_self_nonneg v.z]
    cases v
    simp_all
  · intro h
    subst h
    simp [vector_dotProduct]

theorem vector_normalise_dot (v : vector_t) (h : vector_dotProduct v v ≠ 0) :
    vector_dotProduct (vector_normalise v) (vector_normalise v) = 1 := by
  have hpos : 0 < vector_dotProduct v v :=
    lt_of_le_of_ne (vector_dotProduct_self_nonneg v) (Ne.symm h)
  have hs : Real.sqrt (vector_dotProduct v v) * Real.sqrt (vector_dotProduct v v)
      = vector_dotProduct v v := Real.mul_self_sqrt hpos.le
  have hne : Real.sqrt (vector_dotProduct v v) ≠ 0 := (Real.sqrt_pos.mpr hpos).ne'
  have key : vector_dotProduct (vector_normalise v) (vector_normalise v)
      = vector_dotProduct v v
        * ((1 / Real.sqrt (vector_dotProduct v v)) * (1 / Real.sqrt (vector_dotProduct v v))) := by
    simp only [vector_normalise, vector_dotProduct]
    ring
  rw [key]
  field_simp

theorem vector_normalise_norm (v : vector_t) (h : vector_dotProduct v v ≠ 0) :
    Real.sqrt (vector_dotProduct (vector_normalise v) (vector_normalise v)) = 1 := by
  rw [vector_normalise_dot v h, Real.sqrt_one]

theorem double_to_int_of_small (d : ℝ) (h1 : -1 < d) (h2 : d < 1) : double_to_int d = 0 := by
  unfold double_to_int
  split_ifs with h
  · rw [Int.floor_eq_iff]
    constructor
    · simpa using h
    · simpa using h2
  · rw [Int.ceil_eq_iff]
    constructor
    · simpa using h1
    · push_neg at h
      simpa using h.le

theorem expo_of_small (delta temperature : ℝ) (h1 : -1 < delta) (h2 : delta < 1) :
    expo delta temperature = 1 := by
  unfold expo
  rw [double_to_int_of_small delta h1 h2]
  simp [abs_int]

/-! ## The double loop over index pairs -/

theorem zero_literal : (0.0 : ℝ) = 0 := by norm_num

theorem foldl_add_eq (f : ℕ → ℝ) (l : List ℕ) (a : ℝ) :
    l.foldl (fun acc j => acc + f j) a = a + (l.map f).sum := by
  induction l generalizing a with
  | nil => simp
  | cons b l ih => simp [ih, add_assoc]

theorem sum_map_range' (f : ℕ → ℝ) (a len : ℕ) :
    ((List.range' a len).map f).sum = ∑ j in Finset.Ico a (a + len), f j := by
  induction len generalizing a with
  | zero => simp
  | succ len ih =>
    have hb : a + 1 + len = a + (len + 1) := by omega
    rw [List.range'_succ, List.map_cons, List.sum_cons, ih (a + 1), hb,
      Finset.sum_eq_sum_Ico_succ_bot (by omega : a < a + (len + 1))]

/-- The double loop `for (i = 0; i < n - 1; i++) for (j = i + 1; j < n; j++) acc += f(i, j)`
adds up `f` over the index pairs `i < j < n`. -/
theorem pair_loop_eq_sum (f : ℕ → ℕ → ℝ) (n : ℕ) :
    (List.range (n - 1)).foldl
        (fun acc i => (List.range' (i + 1) (n - (i + 1))).foldl (fun acc j => acc + f i j) acc) 0
      = ∑ p in (Finset.range n ×ˢ Finset.range n).filter (fun p => p.1 < p.2), f p.1 p.2 := by
  have inner : ∀ (i : ℕ) (acc : ℝ),
      (List.range' (i + 1) (n - (i + 1))).foldl (fun acc j => acc + f i j) acc
        = acc + ∑ j in Finset.Ico (i + 1) (i + 1 + (n - (i + 1))), f i j := by
    intro i acc
    rw [foldl_add_eq (f i), sum_map_range']
  simp only [inner]
  rw [foldl_add_eq (fun i => ∑ j in Finset.Ico (i + 1) (i + 1 + (n - (i + 1))), f i j),
    List.range_eq_range', sum_map_range', zero_add, zero_add, Finset.sum_filter,
    Finset.sum_product]
  have hrow : ∀ i ∈ Finset.range n,
      (∑ j in Finset.range n, if i < j then f i j else 0) = ∑ j in Finset.Ico (i + 1) n, f i j := by
    intro i _
    rw [← Finset.sum_filter]
    congr 1
    ext j
    simp only [Finset.mem_filter, Finset.mem_range, Finset.mem_Ico]
    omega
  rw [Finset.sum_congr rfl hrow]
  have hleft : ∀ i ∈ Finset.Ico 0 (n - 1),
      (∑ j in Finset.Ico (i + 1) (i + 1 + (n - (i + 1))), f i j)
        = ∑ j in Finset.Ico (i + 1) n, f i j := by
    intro i hi
    rw [Finset.mem_Ico] at hi
    have : i + 1 + (n - (i + 1)) = n := by omega
    rw [this]
  rw [Finset.sum_congr rfl hleft]
  cases n with
  | zero => simp
  | succ m =>
    rw [Finset.sum_range_succ, Finset.Ico_self, Finset.sum_empty, add_zero,
      Finset.range_eq_Ico, Nat.add_sub_cancel]

/-! ## Facts about the annealing loops -/

theorem foldl_invariant {σ : Type} (R : σ → σ → Prop) (hrefl : ∀ a, R a a)
    (htrans : ∀ a b c, R a b → R b c → R a c) (f : σ → ℕ → σ) (hf : ∀ s k, R s (f s k))
    (l : List ℕ) (s : σ) : R s (l.foldl f s) := by
  induction l generalizing s with
  | nil => exact hrefl s
  | cons k l ih => exact htrans _ _ _ (hf s k) (ih (f s k))

theorem sa_distance_iteration_best (n index : ℕ) (variance : ℝ) (rand : rand_t) (s : sa_vars) :
    s.distance_best ≤ (sa_distance_iteration n index variance rand s).distance_best := by
  unfold sa_distance_iteration
  simp only []
  split_ifs with h1 h2 h3
  · exact h2.le
  · exact le_refl _
  · exact le_refl _
  · exact le_refl _

theorem sa_distance_iteration_temperature (n index : ℕ) (variance : ℝ) (rand : rand_t)
    (s : sa_vars) :
    (sa_distance_iteration n index variance rand s).temperature = s.temperature := by
  unfold sa_distance_iteration
  simp only []
  split_ifs <;> rfl

theorem sa_closeness_iteration_best (n : ℕ) (index_min : ℤ × ℤ) (variance : ℝ)
    (v_new_0 v_new_1 : vector_t) (rand : rand_t) (s : sa_vars) :
    s.distance_best
      ≤ (sa_closeness_iteration n index_min variance v_new_0 v_new_1 rand s).distance_best := by
  unfold sa_closeness_iteration
  simp only []
  split_ifs with h1 h2 h3
  · exact h2.le
  · exact le_refl _
  · exact le_refl _
  · exact le_refl _

theorem sa_closeness_iteration_temperature (n : ℕ) (index_min : ℤ × ℤ) (variance : ℝ)
    (v_new_0 v_new_1 : vector_t) (rand : rand_t) (s : sa_vars) :
    (sa_closeness_iteration n index_min variance v_new_0 v_new_1 rand s).temperature
      = s.temperature := by
  unfold sa_closeness_iteration
  simp only []
  split_ifs <;> rfl

theorem sa_energy_iteration_best (n index : ℕ) (variance : ℝ) (rand : rand_t)
    (s : sa_energy_vars) :
    (sa_energy_iteration n index variance rand s).energy_best ≤ s.energy_best := by
  unfold sa_energy_iteration
  simp only []
  split_ifs with h1 h2 h3
  · exact h2.le
  · exact le_refl _
  · exact le_refl _
  · exact le_refl _

theorem sa_energy_iteration_temperature (n index : ℕ) (variance : ℝ) (rand : rand_t)
    (s : sa_energy_vars) :
    (sa_energy_iteration n index variance rand s).temperature = s.temperature := by
  unfold sa_energy_iteration
  simp only []
  split_ifs <;> rfl

theorem sa_distance_round_best (globalArgs : globalArgs_t) (rand : rand_t) (lvl : ℕ)
    (s : sa_vars) : s.distance_best ≤ (sa_distance_round globalArgs rand lvl s).distance_best := by
  unfold sa_distance_round
  exact foldl_invariant (fun a b : sa_vars => a.distance_best ≤ b.distance_best)
    (fun _ => le_refl _) (fun _ _ _ => le_trans) _
    (fun t _ => sa_distance_iteration_best _ _ _ _ t) _ s

theorem sa_distance_round_temperature (globalArgs : globalArgs_t) (rand : rand_t) (lvl : ℕ)
    (s : sa_vars) :
    (sa_distance_round globalArgs rand lvl s).temperature
      = anneal s.temperature globalArgs.damping := by
  unfold sa_distance_round
  have h := foldl_invariant (fun a b : sa_vars => b.temperature = a.temperature)
    (fun _ => rfl) (fun _ _ _ h1 h2 => h2.trans h1) _
    (fun t _ => sa_distance_iteration_temperature globalArgs.n
      (selectPoint (rand.lrand48 lvl) globalArgs.n)
      (0.5 * (1 - Real.exp (-0.5 * s.temperature))) rand t) (List.range globalArgs.iter) s
  simp only [] at h ⊢
  rw [h]

theorem sa_closeness_round_best (globalArgs : globalArgs_t) (stack : stack_t) (rand : rand_t)
    (s : sa_vars) :
    s.distance_best ≤ (sa_closeness_round globalArgs stack rand s).distance_best := by
  unfold sa_closeness_round
  exact foldl_invariant (fun a b : sa_vars => a.distance_best ≤ b.distance_best)
    (fun _ => le_refl _) (fun _ _ _ => le_trans) _
    (fun t _ => sa_closeness_iteration_best _ _ _ _ _ _ t) _ s

theorem sa_closeness_round_temperature (globalArgs : globalArgs_t) (stack : stack_t)
    (rand : rand_t) (s : sa_vars) :
    (sa_closeness_round globalArgs stack rand s).temperature
      = anneal s.temperature globalArgs.damping := by
  unfold sa_closeness_round
  have h := foldl_invariant (fun a b : sa_vars => b.temperature = a.temperature)
    (fun _ => rfl) (fun _ _ _ h1 h2 => h2.trans h1) _
    (fun t _ => sa_closeness_iteration_temperature globalArgs.n
      (sphere_selectClosest s.points globalArgs.n stack.index_min_1 stack.index_min_2)
      0.01 stack.v_new_0 stack.v_new_1 rand t) (List.range globalArgs.iter) s
  simp only [] at h ⊢
  rw [h]

theorem sa_energy_round_best (globalArgs : globalArgs_t) (rand : rand_t) (lvl : ℕ)
    (s : sa_energy_vars) :
    (sa_energy_round globalArgs rand lvl s).energy_best ≤ s.energy_best := by
  unfold sa_energy_round
  exact foldl_invariant (fun a b : sa_energy_vars => b.energy_best ≤ a.energy_best)
    (fun _ => le_refl _) (fun _ _ _ h1 h2 => le_trans h2 h1) _
    (fun t _ => sa_energy_iteration_best _ _ _ _ t) _ s

theorem sa_energy_round_temperature (globalArgs : globalArgs_t) (rand : rand_t) (lvl : ℕ)
    (s : sa_energy_vars) :
    (sa_energy_round globalArgs rand lvl s).temperature
      = anneal s.temperature globalArgs.damping := by
  unfold sa_energy_round
  have h := foldl_invariant (fun a b : sa_energy_vars => b.temperature = a.temperature)
    (fun _ => rfl) (fun _ _ _ h1 h2 => h2.trans h1) _
    (fun t _ => sa_energy_iteration_temperature globalArgs.n
      (selectPoint (rand.lrand48 lvl) globalArgs.n)
      (1 - Real.exp (-0.5 * s.temperature)) rand t) (List.range globalArgs.iter) s
  simp only [] at h ⊢
  rw [h]

theorem sa_distance_loop_best (globalArgs : globalArgs_t) (rand : rand_t) (fuel lvl : ℕ)
    (s s' : sa_vars) (h : sa_distance_loop globalArgs rand fuel lvl s = some s') :
    s.distance_best ≤ s'.distance_best := by
  induction fuel generalizing lvl s with
  | zero => simp [sa_distance_loop] at h
  | succ fuel ih =>
    simp only [sa_distance_loop] at h
    split_ifs at h with hT
    · exact le_trans (sa_distance_round_best globalArgs rand lvl s) (ih _ _ h)
    · cases h
      exact sa_distance_round_best globalArgs rand lvl s

theorem sa_closeness_loop_best (globalArgs : globalArgs_t) (stack : stack_t) (rand : rand_t)
    (fuel : ℕ) (s s' : sa_vars) (h : sa_closeness_loop globalArgs stack rand fuel s = some s') :
    s.distance_best ≤ s'.distance_best := by
  induction fuel generalizing s with
  | zero => simp [sa_closeness_loop] at h
  | succ fuel ih =>
    simp only [sa_closeness_loop] at h
    split_ifs at h with hT
    · exact le_trans (sa_closeness_round_best globalArgs stack rand s) (ih _ h)
    · cases h
      exact sa_closeness_round_best globalArgs stack rand s

theorem sa_energy_loop_best (globalArgs : globalArgs_t) (rand : rand_t) (fuel lvl : ℕ)
    (s s' : sa_energy_vars) (h : sa_energy_loop globalArgs rand fuel lvl s = some s') :
    s'.energy_best ≤ s.energy_best := by
  induction fuel generalizing lvl s with
  | zero => simp [sa_energy_loop] at h
  | succ fuel ih =>
    simp only [sa_energy_loop] at h
    split_ifs at h with hT
    · exact le_trans (ih _ _ h) (sa_energy_round_best globalArgs rand lvl s)
    · cases h
      exact sa_energy_round_best globalArgs rand lvl s

/-- A run of one outer round: when the temperature after annealing is at most `T_MIN`, the
`do ... while` loop of `sa_distance` stops after its first round. -/
theorem sa_distance_loop_one (globalArgs : globalArgs_t) (rand : rand_t) (fuel lvl : ℕ)
    (s : sa_vars) (h : anneal s.temperature globalArgs.damping ≤ T_MIN) :
    sa_distance_loop globalArgs rand (fuel + 1) lvl s
      = some (sa_distance_round globalArgs rand lvl s) := by
  simp only [sa_distance_loop]
  rw [if_neg]
  rw [sa_distance_round_temperature]
  exact not_lt.mpr h

theorem sa_closeness_loop_one (globalArgs : globalArgs_t) (stack : stack_t) (rand : rand_t)
    (fuel : ℕ) (s : sa_vars) (h : anneal s.temperature globalArgs.damping ≤ T_MIN) :
    sa_closeness_loop globalArgs stack rand (fuel + 1) s
      = some (sa_closeness_round globalArgs stack rand s) := by
  simp only [sa_closeness_loop]
  rw [if_neg]
  rw [sa_closeness_round_temperature]
  exact not_lt.mpr h

theorem sa_energy_loop_one (globalArgs : globalArgs_t) (rand : rand_t) (fuel lvl : ℕ)
    (s : sa_energy_vars) (h : anneal s.temperature globalArgs.damping ≤ T_MIN) :
    sa_energy_loop globalArgs rand (fuel + 1) lvl s
      = some (sa_energy_round globalArgs rand lvl s) := by
  simp only [sa_energy_loop]
  rw [if_neg]
  rw [sa_energy_round_temperature]
  exact not_lt.mpr h

/-! ## The branches of an inner iteration of `sa_distance` -/

/-- The branch of an inner iteration that accepts a strict improvement and takes a snapshot
of the best configuration. -/
theorem sa_distance_iteration_snapshot (n index : ℕ) (variance : ℝ) (rand : rand_t) (s : sa_vars)
    (h1 : sphere_distance (sa_distance_new_points index variance rand s) n
      > sphere_distance s.points n)
    (h2 : s.distance_best < sphere_distance (sa_distance_new_points index variance rand s) n) :
    sa_distance_iteration n index variance rand s =
      { points := Function.update s.points index (sa_distance_v_new index variance rand s),
        new_points := sa_distance_new_points index variance rand s,
        best_points := vector_arrayCopy s.best_points
          (Function.update s.points index (sa_distance_v_new index variance rand s)) n,
        distance_best := sphere_distance (sa_distance_new_points index variance rand s) n,
        distance_cur := sphere_distance (sa_distance_new_points index variance rand s) n,
        temperature := s.temperature, iteration := s.iteration + 1,
        log := s.log ++ [⟨s.iteration,
          sphere_distance (sa_distance_new_points index variance rand s) n,
          sphere_distance (sa_distance_new_points index variance rand s) n
            - sphere_distance s.points n, s.temperature, variance, 1⟩] } := by
  unfold sa_distance_new_points sa_distance_v_new at h1 h2
  unfold sa_distance_iteration sa_distance_new_points sa_distance_v_new
  simp only [vector_copy_eq] at h1 h2 ⊢
  rw [if_pos h1, if_pos h2]

/-- The branch of an inner iteration that accepts a proposal which is not a strict
improvement. -/
theorem sa_distance_iteration_accept (n index : ℕ) (variance : ℝ) (rand : rand_t) (s : sa_vars)
    (h1 : ¬ sphere_distance (sa_distance_new_points index variance rand s) n
      > sphere_distance s.points n)
    (h3 : rand.drand48 s.iteration
      < expo (sphere_distance (sa_distance_new_points index variance rand s) n
          - sphere_distance s.points n) s.temperature) :
    sa_distance_iteration n index variance rand s =
      { points := Function.update s.points index (sa_distance_v_new index variance rand s),
        new_points := sa_distance_new_points index variance rand s,
        best_points := s.best_points,
        distance_best := s.distance_best,
        distance_cur := sphere_distance s.points n,
        temperature := s.temperature, iteration := s.iteration + 1,
        log := s.log ++ [⟨s.iteration, sphere_distance s.points n,
          sphere_distance (sa_distance_new_points index variance rand s) n
            - sphere_distance s.points n, s.temperature, variance, 1⟩] } := by
  unfold sa_distance_new_points sa_distance_v_new at h1 h3
  unfold sa_distance_iteration sa_distance_new_points sa_distance_v_new
  simp only [vector_copy_eq] at h1 h3 ⊢
  rw [if_neg h1, if_pos h3]

/-- An inner iteration of `sa_distance` that is not a strict improvement leaves the best
configuration and the best distance as they are. -/
theorem sa_distance_iteration_no_snapshot (n index : ℕ) (variance : ℝ) (rand : rand_t)
    (s : sa_vars)
    (h1 : ¬ sphere_distance (sa_distance_new_points index variance rand s) n
      > sphere_distance s.points n) :
    (sa_distance_iteration n index variance rand s).best_points = s.best_points := by
  unfold sa_distance_new_points sa_distance_v_new at h1
  unfold sa_distance_iteration
  simp only [vector_copy_eq] at h1 ⊢
  rw [if_neg h1]
  split_ifs <;> rfl

theorem sphere_distance_one (points : vector_array) : sphere_distance points 1 = 0 := by
  simp [sphere_distance, zero_literal]

theorem sphere_distance_two (points : vector_array) :
    sphere_distance points 2 = distance (points 0) (points 1) := by
  simp [sphere_distance, zero_literal, List.range_succ, List.range']

/-! ## A run of `sa_distance` on the antipodal pair -/

theorem demo_anneal : anneal (1 : ℝ) (1 / 20) ≤ T_MIN := by
  unfold anneal T_MIN
  norm_num

theorem demo_sigma_pos : 0 < demo_sigma := by
  unfold demo_sigma
  have h : Real.exp (-0.5 * 1) < 1 := by
    rw [Real.exp_lt_one_iff]
    norm_num
  linarith

theorem demo_sigma_sqrt : Real.sqrt (demo_sigma * demo_sigma) = demo_sigma :=
  Real.sqrt_mul_self demo_sigma_pos.le

theorem vector_normalise_of_unit (v : vector_t) (h : vector_dotProduct v v = 1) :
    vector_normalise v = v := by
  unfold vector_normalise
  simp only [h, Real.sqrt_one, div_one, mul_one]

theorem demo_walk_1 :
    sphere_walk ⟨0, -1, 0⟩ (demo_sigma * demo_sigma) (1 / demo_sigma) (1 / demo_sigma) 0
      = ⟨1, 0, 0⟩ := by
  have hne : demo_sigma ≠ 0 := demo_sigma_pos.ne'
  have hv : sphere_walk_vector ⟨0, -1, 0⟩ (demo_sigma * demo_sigma) (1 / demo_sigma)
      (1 / demo_sigma) 0 = ⟨1, 0, 0⟩ := by
    have h1 : 1 / demo_sigma * demo_sigma = 1 := by field_simp
    simp only [sphere_walk_vector, demo_sigma_sqrt, h1]
    norm_num
  rw [sphere_walk, hv]
  apply vector_normalise_of_unit
  simp [vector_dotProduct]

theorem demo_walk_2 :
    sphere_walk ⟨1, 0, 0⟩ (demo_sigma * demo_sigma) (-1 / (5 * demo_sigma))
      (-3 / (5 * demo_sigma)) 0 = ⟨4 / 5, -3 / 5, 0⟩ := by
  have hne : demo_sigma ≠ 0 := demo_sigma_pos.ne'
  have hv : sphere_walk_vector ⟨1, 0, 0⟩ (demo_sigma * demo_sigma) (-1 / (5 * demo_sigma))
      (-3 / (5 * demo_sigma)) 0 = ⟨4 / 5, -3 / 5, 0⟩ := by
    have h1 : -1 / (5 * demo_sigma) * demo_sigma = -1 / 5 := by
      field_simp
      ring
    have h2 : -3 / (5 * demo_sigma) * demo_sigma = -3 / 5 := by
      field_simp
      ring
    simp only [sphere_walk_vector, demo_sigma_sqrt, h1, h2]
    norm_num
  rw [sphere_walk, hv]
  apply vector_normalise_of_unit
  simp only [vector_dotProduct]
  norm_num

theorem demo_distance_start : distance ⟨0, -1, 0⟩ ⟨0, 1, 0⟩ = 2 := by
  simp only [distance, euclideanDistance, vector_dotProduct]
  have h : ((0 : ℝ) - 0) * (0 - 0) + (-1 - 1) * (-1 - 1) + (0 - 0) * (0 - 0) = 2 * 2 := by
    norm_num
  rw [h, Real.sqrt_mul_self (by norm_num)]

theorem demo_distance_mid : distance ⟨1, 0, 0⟩ ⟨0, 1, 0⟩ = Real.sqrt 2 := by
  simp only [distance, euclideanDistance, vector_dotProduct]
  norm_num

theorem demo_distance_end : distance ⟨4 / 5, -3 / 5, 0⟩ ⟨0, 1, 0⟩ = Real.sqrt (16 / 5) := by
  simp only [distance, euclideanDistance, vector_dotProduct]
  norm_num

theorem demo_sqrt_two_gt : 1 < Real.sqrt 2 := by
  rw [show (1 : ℝ) = Real.sqrt 1 from Real.sqrt_one.symm]
  exact Real.sqrt_lt_sqrt (by norm_num) (by norm_num)

theorem demo_sqrt_lt_two (x : ℝ) (h0 : 0 ≤ x) (h4 : x < 4) : Real.sqrt x < 2 := by
  have h : Real.sqrt 4 = 2 := by
    rw [show (4 : ℝ) = 2 * 2 by norm_num, Real.sqrt_mul_self (by norm_num)]
  rw [← h]
  exact Real.sqrt_lt_sqrt h0 h4

theorem demo_s0_new_points_1 : demo_s0.new_points 1 = ⟨0, 1, 0⟩ := by
  simp [demo_s0, sa_init, vector_arrayCopy_apply, demo_args, demo_points]

theorem demo_v_new_1 : sa_distance_v_new 0 demo_sigma demo_rand demo_s0 = ⟨1, 0, 0⟩ := by
  have h : sa_distance_v_new 0 demo_sigma demo_rand demo_s0
      = sphere_walk ⟨0, -1, 0⟩ (demo_sigma * demo_sigma) (1 / demo_sigma) (1 / demo_sigma) 0 := by
    simp [sa_distance_v_new, demo_s0, sa_init, demo_points, demo_rand]
  rw [h, demo_walk_1]

theorem demo_distance_new_1 :
    sphere_distance (sa_distance_new_points 0 demo_sigma demo_rand demo_s0) 2 = Real.sqrt 2 := by
  rw [sphere_distance_two, sa_distance_new_points, demo_v_new_1, Function.update_same,
    Function.update_noteq (by decide), demo_s0_new_points_1, demo_distance_mid]

theorem demo_distance_old_1 : sphere_distance demo_s0.points 2 = 2 := by
  rw [sphere_distance_two]
  exact demo_distance_start

theorem demo_s1_eq :
    demo_s1 =
      { points := Function.update demo_s0.points 0 ⟨1, 0, 0⟩,
        new_points := Function.update demo_s0.new_points 0 ⟨1, 0, 0⟩,
        best_points := demo_s0.best_points,
        distance_best := demo_s0.distance_best,
        distance_cur := 2,
        temperature := demo_s0.temperature, iteration := demo_s0.iteration + 1,
        log := demo_s0.log ++ [⟨demo_s0.iteration, 2, Real.sqrt 2 - 2, demo_s0.temperature,
          demo_sigma, 1⟩] } := by
  have h1 : ¬ sphere_distance (sa_distance_new_points 0 demo_sigma demo_rand demo_s0) 2
      > sphere_distance demo_s0.points 2 := by
    rw [demo_distance_new_1, demo_distance_old_1]
    exact not_lt.mpr (demo_sqrt_lt_two 2 (by norm_num) (by norm_num)).le
  have h3 : demo_rand.drand48 demo_s0.iteration
      < expo (sphere_distance (sa_distance_new_points 0 demo_sigma demo_rand demo_s0) 2
          - sphere_distance demo_s0.points 2) demo_s0.temperature := by
    rw [demo_distance_new_1, demo_distance_old_1, expo_of_small _ _
      (by linarith [demo_sqrt_two_gt])
      (by linarith [demo_sqrt_lt_two 2 (by norm_num) (by norm_num)])]
    simp [demo_rand]
  rw [demo_s1, sa_distance_iteration_accept 2 0 demo_sigma demo_rand demo_s0 h1 h3,
    demo_distance_new_1, demo_distance_old_1]
  simp only [sa_distance_new_points, demo_v_new_1]

theorem demo_v_new_2 : sa_distance_v_new 0 demo_sigma demo_rand demo_s1 = ⟨4 / 5, -3 / 5, 0⟩ := by
  have h : sa_distance_v_new 0 demo_sigma demo_rand demo_s1
      = sphere_walk ⟨1, 0, 0⟩ (demo_sigma * demo_sigma) (-1 / (5 * demo_sigma))
          (-3 / (5 * demo_sigma)) 0 := by
    rw [demo_s1_eq]
    simp [sa_distance_v_new, demo_s0, sa_init, demo_rand]
  rw [h, demo_walk_2]

theorem demo_distance_new_2 :
    sphere_distance (sa_distance_new_points 0 demo_sigma demo_rand demo_s1) 2
      = Real.sqrt (16 / 5) := by
  rw [sphere_distance_two, sa_distance_new_points, demo_v_new_2, Function.update_same,
    Function.update_noteq (by decide), demo_s1_eq]
  simp only []
  rw [Function.update_noteq (by decide), demo_s0_new_points_1, demo_distance_end]

theorem demo_distance_old_2 : sphere_distance demo_s1.points 2 = Real.sqrt 2 := by
  rw [sphere_distance_two, demo_s1_eq]
  simp only []
  rw [Function.update_same, Function.update_noteq (by decide)]
  exact demo_distance_mid

theorem demo_s2_best_points :
    demo_s2.best_points
      = vector_arrayCopy demo_s1.best_points
          (Function.update demo_s1.points 0 ⟨4 / 5, -3 / 5, 0⟩) 2 := by
  have h1 : sphere_distance (sa_distance_new_points 0 demo_sigma demo_rand demo_s1) 2
      > sphere_distance demo_s1.points 2 := by
    rw [demo_distance_new_2, demo_distance_old_2]
    exact Real.sqrt_lt_sqrt (by norm_num) (by norm_num)
  have h2 : demo_s1.distance_best
      < sphere_distance (sa_distance_new_points 0 demo_sigma demo_rand demo_s1) 2 := by
    rw [demo_distance_new_2]
    have h0 : demo_s1.distance_best = 0 := by
      rw [demo_s1_eq]
      simp [demo_s0, sa_init, zero_literal]
    rw [h0]
    exact Real.sqrt_pos.mpr (by norm_num)
  rw [demo_s2, sa_distance_iteration_snapshot 2 0 demo_sigma demo_rand demo_s1 h1 h2]
  simp only [demo_v_new_2]

theorem demo_round :
    sa_distance_round demo_args demo_rand 0 demo_s0
      = { demo_s2 with temperature := anneal demo_s2.temperature demo_args.damping } := rfl

theorem demo_best_0 :
    (sa_distance_round demo_args demo_rand 0 demo_s0).best_points 0 = ⟨4 / 5, -3 / 5, 0⟩ := by
  rw [demo_round]
  simp only []
  rw [demo_s2_best_points, vector_arrayCopy_apply, if_pos (by decide), Function.update_same]

theorem demo_best_1 :
    (sa_distance_round demo_args demo_rand 0 demo_s0).best_points 1 = ⟨0, 1, 0⟩ := by
  rw [demo_round]
  simp only []
  rw [demo_s2_best_points, vector_arrayCopy_apply, if_pos (by decide),
    Function.update_noteq (by decide), demo_s1_eq]
  simp only []
  rw [Function.update_noteq (by decide)]
  simp [demo_s0, sa_init, demo_points]

/-! ## Runs of `sa_distance` on a single point -/

theorem sa_distance_iteration_single (index : ℕ) (variance : ℝ) (rand : rand_t) (s : sa_vars) :
    (sa_distance_iteration 1 index variance rand s).best_points = s.best_points := by
  apply sa_distance_iteration_no_snapshot
  rw [sphere_distance_one, sphere_distance_one]
  exact lt_irrefl 0

theorem sa_distance_round_single (globalArgs : globalArgs_t) (hn : globalArgs.n = 1)
    (rand : rand_t) (lvl : ℕ) (s : sa_vars) :
    (sa_distance_round globalArgs rand lvl s).best_points = s.best_points := by
  unfold sa_distance_round
  rw [hn]
  exact foldl_invariant (fun a b : sa_vars => b.best_points = a.best_points)
    (fun _ => rfl) (fun _ _ _ h1 h2 => h2.trans h1) _
    (fun t _ => sa_distance_iteration_single _ _ rand t) _ s

/-! ## The claims -/

/-- C1 (the code departs from it).  For the non-improving proposal with
`distance_delta = -1/2` at temperature `1`, the value `expo` that `sa_distance` compares the
uniform draw against is `1`, because `abs` truncates its argument to the integer `0`; the
Metropolis threshold `exp(-|delta| / (k * T))` is below `1` there. -/
theorem expo_truncates_delta :
    (1 : ℝ) > 0 ∧ (-1 / 2 : ℝ) ≤ 0 ∧ expo (-1 / 2) 1 = 1 ∧
      Real.exp (-|(-1 / 2 : ℝ)| / (BOLTZMANN_CONSTANT * 1)) < 1 ∧
      expo (-1 / 2) 1 ≠ Real.exp (-|(-1 / 2 : ℝ)| / (BOLTZMANN_CONSTANT * 1)) := by
  have h : expo (-1 / 2) 1 = 1 := expo_of_small _ _ (by norm_num) (by norm_num)
  have h2 : Real.exp (-|(-1 / 2 : ℝ)| / (BOLTZMANN_CONSTANT * 1)) < 1 := by
    rw [Real.exp_lt_one_iff]
    have : |(-1 / 2 : ℝ)| = 1 / 2 := by
      rw [abs_of_neg (by norm_num)]
      norm_num
    rw [this]
    unfold BOLTZMANN_CONSTANT
    norm_num
  refine ⟨by norm_num, by norm_num, h, h2, ?_⟩
  rw [h]
  exact h2.ne'

/-- C2 (the code departs from it).  On the antipodal pair `(0, -1, 0)`, `(0, 1, 0)`
(pairwise sum distance `2`), with initial temperature `1`, damping `1/20`, two inner
iterations and the draws of `demo_rand`, `sa_distance` returns after one round; the best
configuration it reports is `(4/5, -3/5, 0)`, `(0, 1, 0)`, whose pairwise sum distance
`√(16/5)` is below that of the initial configuration. -/
theorem sa_distance_best_below_initial :
    (2 ≤ demo_args.n ∧ 1 ≤ demo_args.iter ∧ 0 < demo_args.damping ∧ demo_args.damping < 1 ∧
      vector_dotProduct (demo_points 0) (demo_points 0) = 1 ∧
      vector_dotProduct (demo_points 1) (demo_points 1) = 1) ∧
    ∃ s : sa_vars, sa_distance demo_points demo_args demo_stack demo_rand 1 = some s ∧
      logged_best s.best_points demo_args.n = [⟨4 / 5, -3 / 5, 0⟩, ⟨0, 1, 0⟩] ∧
      sphere_distance demo_points demo_args.n = 2 ∧
      sphere_distance s.best_points demo_args.n = Real.sqrt (16 / 5) ∧
      sphere_distance s.best_points demo_args.n < sphere_distance demo_points demo_args.n := by
  refine ⟨⟨by simp [demo_args], by simp [demo_args], by simp [demo_args],
    by simp only [demo_args]; norm_num, by simp [demo_points, vector_dotProduct],
    by simp [demo_points, vector_dotProduct]⟩, ?_⟩
  refine ⟨sa_distance_round demo_args demo_rand 0 demo_s0,
    sa_distance_loop_one demo_args demo_rand 0 0 demo_s0 demo_anneal, ?_, ?_, ?_, ?_⟩
  · have hn : demo_args.n = 2 := rfl
    rw [hn]
    simp [logged_best, List.range_succ, demo_best_0, demo_best_1]
  · exact demo_distance_old_1
  · have hn : demo_args.n = 2 := rfl
    rw [hn, sphere_distance_two, demo_best_0, demo_best_1, demo_distance_end]
  · have hn : demo_args.n = 2 := rfl
    rw [hn, sphere_distance_two, demo_best_0, demo_best_1, demo_distance_end]
    have h : sphere_distance demo_points 2 = 2 := demo_distance_old_1
    rw [h]
    exact demo_sqrt_lt_two _ (by norm_num) (by norm_num)

/-- C3.  In every run the best objective only moves one way.  Each inner iteration of
`sa_distance` and of `sa_closeness` leaves `distance_best` at least as large as it was, each
inner iteration of `sa_energy` leaves `energy_best` at most as large as it was, and so does
every stretch of a run, from any point of it to the exit of the `do ... while` loop. -/
theorem best_objective_monotone (globalArgs : globalArgs_t) (stack : stack_t) (rand : rand_t)
    (fuel lvl : ℕ) (d d' c c' : sa_vars) (e e' : sa_energy_vars)
    (hd : sa_distance_loop globalArgs rand fuel lvl d = some d')
    (hc : sa_closeness_loop globalArgs stack rand fuel c = some c')
    (he : sa_energy_loop globalArgs rand fuel lvl e = some e') :
    (d.distance_best ≤ d'.distance_best ∧ c.distance_best ≤ c'.distance_best ∧
        e'.energy_best ≤ e.energy_best) ∧
      (∀ (n index : ℕ) (variance : ℝ) (s : sa_vars),
        s.distance_best ≤ (sa_distance_iteration n index variance rand s).distance_best) ∧
      (∀ (n : ℕ) (index_min : ℤ × ℤ) (variance : ℝ) (s : sa_vars),
        s.distance_best ≤ (sa_closeness_iteration n index_min variance stack.v_new_0
          stack.v_new_1 rand s).distance_best) ∧
      (∀ (n index : ℕ) (variance : ℝ) (s : sa_energy_vars),
        (sa_energy_iteration n index variance rand s).energy_best ≤ s.energy_best) :=
  ⟨⟨sa_distance_loop_best globalArgs rand fuel lvl d d' hd,
      sa_closeness_loop_best globalArgs stack rand fuel c c' hc,
      sa_energy_loop_best globalArgs rand fuel lvl e e' he⟩,
    fun n index variance s => sa_distance_iteration_best n index variance rand s,
    fun n index_min variance s =>
      sa_closeness_iteration_best n index_min variance stack.v_new_0 stack.v_new_1 rand s,
    fun n index variance s => sa_energy_iteration_best n index variance rand s⟩

/-- The three annealing functions run on the antipodal pair with the parameters
`demo_args`: each stops after one round, and the best objective has moved the right way. -/
theorem best_objective_monotone_witness :
    (sa_init demo_points demo_args demo_stack).distance_best
        ≤ (sa_distance_round demo_args demo_rand 0
            (sa_init demo_points demo_args demo_stack)).distance_best ∧
      (sa_init demo_points demo_args demo_stack).distance_best
        ≤ (sa_closeness_round demo_args demo_stack demo_rand
            (sa_init demo_points demo_args demo_stack)).distance_best ∧
      (sa_energy_round demo_args demo_rand 0
          (sa_energy_init demo_points demo_args demo_stack)).energy_best
        ≤ (sa_energy_init demo_points demo_args demo_stack).energy_best :=
  (best_objective_monotone demo_args demo_stack demo_rand 1 0
    (sa_init demo_points demo_args demo_stack)
    (sa_distance_round demo_args demo_rand 0 (sa_init demo_points demo_args demo_stack))
    (sa_init demo_points demo_args demo_stack)
    (sa_closeness_round demo_args demo_stack demo_rand (sa_init demo_points demo_args demo_stack))
    (sa_energy_init demo_points demo_args demo_stack)
    (sa_energy_round demo_args demo_rand 0 (sa_energy_init demo_points demo_args demo_stack))
    (sa_distance_loop_one demo_args demo_rand 0 0 _ demo_anneal)
    (sa_closeness_loop_one demo_args demo_stack demo_rand 0 _ demo_anneal)
    (sa_energy_loop_one demo_args demo_rand 0 0 _ demo_anneal)).1

/-- C4 (the code departs from it).  With the single point `(1, 0, 0)`, initial temperature
`1`, damping `1/20` and two inner iterations, whatever the random draws, the pairwise sum
distance is `0` for every array, `sa_distance` returns after one round, and the best
configuration it reports is the content that the uninitialised array `best_points` had on
entry, not the initial point. -/
theorem sa_distance_single_point_best :
    (∀ q : vector_array, sphere_distance q demo_args_single.n = 0) ∧
      logged_best demo_point_single demo_args_single.n = [⟨1, 0, 0⟩] ∧
      ∀ (stack : stack_t) (rand : rand_t),
        ∃ s : sa_vars, sa_distance demo_point_single demo_args_single stack rand 1 = some s ∧
          logged_best s.best_points demo_args_single.n = [stack.best_points 0] := by
  have hn : demo_args_single.n = 1 := rfl
  refine ⟨fun q => by rw [hn, sphere_distance_one], ?_, ?_⟩
  · simp [logged_best, hn, demo_point_single, List.range_succ]
  · intro stack rand
    refine ⟨sa_distance_round demo_args_single rand 0
        (sa_init demo_point_single demo_args_single stack),
      sa_distance_loop_one demo_args_single rand 0 0 _ demo_anneal, ?_⟩
    rw [sa_distance_round_single demo_args_single hn]
    simp [logged_best, hn, sa_init, List.range_succ]

/-- C5.  When the pair of coordinates `u`, `v` drawn by `sphere_getPoint` satisfies
`u² + v² < 1`, the rejection loop stops at once, the point returned is
`(2u√(1−u²−v²), 2v√(1−u²−v²), 1−2(u²+v²))`, and its Euclidean norm is exactly `1`. -/
theorem sphere_getPoint_unit (u v : ℝ) (huv : u ^ 2 + v ^ 2 < 1) (drand48 : ℕ → ℝ) (c fuel : ℕ)
    (hu : getCoordinate (drand48 c) = u) (hv : getCoordinate (drand48 (c + 1)) = v) :
    sphere_getPoint drand48 (fuel + 1) c
        = some ⟨2 * u * Real.sqrt (1 - u ^ 2 - v ^ 2), 2 * v * Real.sqrt (1 - u ^ 2 - v ^ 2),
            1 - 2 * (u ^ 2 + v ^ 2)⟩ ∧
      Real.sqrt (vector_dotProduct
          ⟨2 * u * Real.sqrt (1 - u ^ 2 - v ^ 2), 2 * v * Real.sqrt (1 - u ^ 2 - v ^ 2),
            1 - 2 * (u ^ 2 + v ^ 2)⟩
          ⟨2 * u * Real.sqrt (1 - u ^ 2 - v ^ 2), 2 * v * Real.sqrt (1 - u ^ 2 - v ^ 2),
            1 - 2 * (u ^ 2 + v ^ 2)⟩) = 1 := by
  constructor
  · have hlt : ¬ (u * u + v * v ≥ 1) := by nlinarith
    simp only [sphere_getPoint, hu, hv, hlt, if_false, sphere_getPoint_vector]
    simp only [pow_two]
  · have h0 : 0 ≤ 1 - u ^ 2 - v ^ 2 := by linarith
    have hs : Real.sqrt (1 - u ^ 2 - v ^ 2) * Real.sqrt (1 - u ^ 2 - v ^ 2)
        = 1 - u ^ 2 - v ^ 2 := Real.mul_self_sqrt h0
    have key : vector_dotProduct
          ⟨2 * u * Real.sqrt (1 - u ^ 2 - v ^ 2), 2 * v * Real.sqrt (1 - u ^ 2 - v ^ 2),
            1 - 2 * (u ^ 2 + v ^ 2)⟩
          ⟨2 * u * Real.sqrt (1 - u ^ 2 - v ^ 2), 2 * v * Real.sqrt (1 - u ^ 2 - v ^ 2),
            1 - 2 * (u ^ 2 + v ^ 2)⟩ = 1 := by
      simp only [vector_dotProduct]
      linear_combination (4 * u ^ 2 + 4 * v ^ 2) * hs
    rw [key, Real.sqrt_one]

/-- A run of `sphere_getPoint` to which C5 applies: both draws are `1/2`, the coordinates
are `0`, `0`. -/
theorem sphere_getPoint_unit_witness :
    sphere_getPoint (fun _ => 1 / 2) (0 + 1) 0
        = some ⟨2 * 0 * Real.sqrt (1 - (0 : ℝ) ^ 2 - (0 : ℝ) ^ 2),
            2 * 0 * Real.sqrt (1 - (0 : ℝ) ^ 2 - (0 : ℝ) ^ 2), 1 - 2 * ((0 : ℝ) ^ 2 + (0 : ℝ) ^ 2)⟩ ∧
      Real.sqrt (vector_dotProduct
          ⟨2 * 0 * Real.sqrt (1 - (0 : ℝ) ^ 2 - (0 : ℝ) ^ 2),
            2 * 0 * Real.sqrt (1 - (0 : ℝ) ^ 2 - (0 : ℝ) ^ 2), 1 - 2 * ((0 : ℝ) ^ 2 + (0 : ℝ) ^ 2)⟩
          ⟨2 * 0 * Real.sqrt (1 - (0 : ℝ) ^ 2 - (0 : ℝ) ^ 2),
            2 * 0 * Real.sqrt (1 - (0 : ℝ) ^ 2 - (0 : ℝ) ^ 2),
            1 - 2 * ((0 : ℝ) ^ 2 + (0 : ℝ) ^ 2)⟩) = 1 :=
  sphere_getPoint_unit 0 0 (by norm_num) (fun _ => 1 / 2) 0 0
    (by simp only [getCoordinate]; norm_num) (by simp only [getCoordinate]; norm_num)

/-- C6.  For a vector `v` of norm `√(v·v) ≠ 0`, `vector_normalise` divides each component
by `√(v·v)`, and the result has norm `1`. -/
theorem vector_normalise_spec (v : vector_t) (h : Real.sqrt (vector_dotProduct v v) ≠ 0) :
    (vector_normalise v).x = v.x / Real.sqrt (vector_dotProduct v v) ∧
      (vector_normalise v).y = v.y / Real.sqrt (vector_dotProduct v v) ∧
      (vector_normalise v).z = v.z / Real.sqrt (vector_dotProduct v v) ∧
      Real.sqrt (vector_dotProduct (vector_normalise v) (vector_normalise v)) = 1 := by
  have hne : vector_dotProduct v v ≠ 0 := by
    intro h0
    rw [h0, Real.sqrt_zero] at h
    exact h rfl
  refine ⟨?_, ?_, ?_, vector_normalise_norm v hne⟩ <;>
    simp only [vector_normalise, mul_one_div]

/-- The vector `(3, 0, 4)`, of norm `5`, is normalised to `(3/5, 0, 4/5)`. -/
theorem vector_normalise_spec_witness :
    (vector_normalise ⟨3, 0, 4⟩).x = 3 / Real.sqrt (vector_dotProduct ⟨3, 0, 4⟩ ⟨3, 0, 4⟩) ∧
      (vector_normalise ⟨3, 0, 4⟩).y = 0 / Real.sqrt (vector_dotProduct ⟨3, 0, 4⟩ ⟨3, 0, 4⟩) ∧
      (vector_normalise ⟨3, 0, 4⟩).z = 4 / Real.sqrt (vector_dotProduct ⟨3, 0, 4⟩ ⟨3, 0, 4⟩) ∧
      Real.sqrt (vector_dotProduct (vector_normalise ⟨3, 0, 4⟩) (vector_normalise ⟨3, 0, 4⟩))
        = 1 :=
  vector_normalise_spec ⟨3, 0, 4⟩ (by
    have h : vector_dotProduct ⟨3, 0, 4⟩ ⟨3, 0, 4⟩ = 25 := by
      simp only [vector_dotProduct]; norm_num
    rw [h]
    exact (Real.sqrt_pos.mpr (by norm_num)).ne')

/-- C7 fails as stated.  For the unit point `(1, 0, 0)`, variance `1` and the noise draws
`(-1, 0, 0)`, the vector that `sphere_walk` passes to `vector_normalise` is the zero vector,
and the point returned does not have norm `1`. -/
theorem sphere_walk_zero_vector :
    Real.sqrt (vector_dotProduct ⟨1, 0, 0⟩ ⟨1, 0, 0⟩) = 1 ∧ (0 : ℝ) ≤ 1 ∧
      sphere_walk_vector ⟨1, 0, 0⟩ 1 (-1) 0 0 = ⟨0, 0, 0⟩ ∧
      Real.sqrt (vector_dotProduct (sphere_walk ⟨1, 0, 0⟩ 1 (-1) 0 0)
        (sphere_walk ⟨1, 0, 0⟩ 1 (-1) 0 0)) ≠ 1 := by
  have hv : sphere_walk_vector ⟨1, 0, 0⟩ 1 (-1) 0 0 = ⟨0, 0, 0⟩ := by
    simp [sphere_walk_vector]
  refine ⟨by simp [vector_dotProduct], by norm_num, hv, ?_⟩
  simp [sphere_walk, hv, vector_normalise, vector_dotProduct]

/-- C7, amended.  For every unit point `p`, every variance `≥ 0` and every triple of normal
noise draws for which the perturbed vector `p + √variance · noise` is not the zero vector,
`sphere_walk` returns a point of norm `1`. -/
theorem sphere_walk_unit (p : vector_t) (variance n1 n2 n3 : ℝ)
    (_hp : Real.sqrt (vector_dotProduct p p) = 1) (_hvar : 0 ≤ variance)
    (hne : sphere_walk_vector p variance n1 n2 n3 ≠ ⟨0, 0, 0⟩) :
    Real.sqrt (vector_dotProduct (sphere_walk p variance n1 n2 n3)
      (sphere_walk p variance n1 n2 n3)) = 1 := by
  unfold sphere_walk
  apply vector_normalise_norm
  intro h0
  exact hne ((vector_dotProduct_self_eq_zero _).mp h0)

/-- The walk from `(1, 0, 0)` with variance `1` and noise `(2, 0, 0)` passes `(3, 0, 0)` to
the normalisation and returns a unit point. -/
theorem sphere_walk_unit_witness :
    Real.sqrt (vector_dotProduct (sphere_walk ⟨1, 0, 0⟩ 1 2 0 0)
      (sphere_walk ⟨1, 0, 0⟩ 1 2 0 0)) = 1 :=
  sphere_walk_unit ⟨1, 0, 0⟩ 1 2 0 0 (by simp [vector_dotProduct]) (by norm_num) (by
    simp [sphere_walk_vector]
    norm_num)

theorem distance_eq_chord (a b : vector_t) : distance a b = chord_distance a b := by
  simp only [distance, euclideanDistance, chord_distance, vector_dotProduct, pow_two]

/-- C8.  For every configuration of `n` points, `sphere_distance` is the sum over all index
pairs `i < j < n` of the chord distance `‖p_i − p_j‖ = √((p_i − p_j)·(p_i − p_j))`; it is `0`
for `n = 0` and for `n = 1`. -/
theorem sphere_distance_eq_pairwise_sum (points : vector_array) (n : ℕ) :
    sphere_distance points n = pairwise_sum_distance points n ∧
      (∀ i j, chord_distance (points i) (points j) =
        Real.sqrt (vector_dotProduct
          ⟨(points i).x - (points j).x, (points i).y - (points j).y, (points i).z - (points j).z⟩
          ⟨(points i).x - (points j).x, (points i).y - (points j).y,
            (points i).z - (points j).z⟩)) ∧
      sphere_distance points 0 = 0 ∧ sphere_distance points 1 = 0 := by
  refine ⟨?_, ?_, ?_, ?_⟩
  · unfold sphere_distance pairwise_sum_distance
    have h := pair_loop_eq_sum (fun i j => distance (points i) (points j)) n
    simp only [distance_eq_chord, zero_literal] at h ⊢
    exact h
  · intro i j
    simp only [chord_distance, vector_dotProduct, pow_two]
  · simp [sphere_distance, zero_literal]
  · simp [sphere_distance, zero_literal]

/-- C10.  For every configuration of `n` points, pairwise distinct or not,
`sphere_rieszEnergy` is the sum over all index pairs `i < j < n` of
`log(1 / ‖p_i − p_j‖²)`. -/
theorem sphere_rieszEnergy_eq_riesz_energy (points : vector_array) (n : ℕ) :
    sphere_rieszEnergy points n = riesz_energy points n := by
  unfold sphere_rieszEnergy riesz_energy
  have h := pair_loop_eq_sum (fun i j => Real.log (1 / (vector_dotProduct
    ⟨(points i).x - (points j).x, (points i).y - (points j).y, (points i).z - (points j).z⟩
    ⟨(points i).x - (points j).x, (points i).y - (points j).y, (points i).z - (points j).z⟩))) n
  have hsq : ∀ a b : vector_t, (chord_distance a b) ^ 2
      = vector_dotProduct ⟨a.x - b.x, a.y - b.y, a.z - b.z⟩ ⟨a.x - b.x, a.y - b.y, a.z - b.z⟩ := by
    intro a b
    unfold chord_distance
    rw [Real.sq_sqrt (by positivity)]
    simp only [vector_dotProduct, pow_two]
  simp only [hsq, zero_literal]
  exact h

theorem rotate_diff_dot (R : Matrix (Fin 3) (Fin 3) ℝ) (horth : R.transpose * R = 1)
    (a b : vector_t) :
    vector_dotProduct
        ⟨(rotate R a).x - (rotate R b).x, (rotate R a).y - (rotate R b).y,
          (rotate R a).z - (rotate R b).z⟩
        ⟨(rotate R a).x - (rotate R b).x, (rotate R a).y - (rotate R b).y,
          (rotate R a).z - (rotate R b).z⟩
      = vector_dotProduct ⟨a.x - b.x, a.y - b.y, a.z - b.z⟩ ⟨a.x - b.x, a.y - b.y, a.z - b.z⟩ := by
  have e00 := congrFun (congrFun horth 0) 0
  have e11 := congrFun (congrFun horth 1) 1
  have e22 := congrFun (congrFun horth 2) 2
  have e01 := congrFun (congrFun horth 0) 1
  have e02 := congrFun (congrFun horth 0) 2
  have e12 := congrFun (congrFun horth 1) 2
  simp only [Matrix.mul_apply, Fin.sum_univ_three, Matrix.transpose_apply, Matrix.one_apply_eq]
    at e00 e11 e22
  simp only [Matrix.mul_apply, Fin.sum_univ_three, Matrix.transpose_apply] at e01 e02 e12
  rw [Matrix.one_apply_ne (by decide)] at e01 e02 e12
  simp only [rotate, vector_dotProduct]
  linear_combination (a.x - b.x) ^ 2 * e00 + (a.y - b.y) ^ 2 * e11 + (a.z - b.z) ^ 2 * e22
    + 2 * (a.x - b.x) * (a.y - b.y) * e01 + 2 * (a.x - b.x) * (a.z - b.z) * e02
    + 2 * (a.y - b.y) * (a.z - b.z) * e12

/-- C9.  For every configuration and every rotation `R` of 3-space (an orthogonal matrix of
determinant `1`), applying `R` to every point changes neither `sphere_distance` nor
`sphere_rieszEnergy` of the configuration. -/
theorem objectives_rotation_invariant (R : Matrix (Fin 3) (Fin 3) ℝ) (points : vector_array)
    (n : ℕ) (horth : R.transpose * R = 1) (_hdet : R.det = 1) :
    sphere_distance (fun i => rotate R (points i)) n = sphere_distance points n ∧
      sphere_rieszEnergy (fun i => rotate R (points i)) n = sphere_rieszEnergy points n := by
  constructor
  · simp only [sphere_distance, distance, euclideanDistance, rotate_diff_dot R horth]
  · simp only [sphere_rieszEnergy, rotate_diff_dot R horth]

/-- The quarter turn about the `z` axis leaves the two objectives of the configuration
`(1, 0, 0)`, `(0, 1, 0)`, `(0, 0, 1)` unchanged. -/
theorem objectives_rotation_invariant_witness :
    sphere_distance
        (fun i => rotate !![0, -1, 0; 1, 0, 0; 0, 0, 1]
          ((fun k => if k = 0 then ⟨1, 0, 0⟩ else if k = 1 then ⟨0, 1, 0⟩ else ⟨0, 0, 1⟩) i)) 3
        = sphere_distance
          (fun k => if k = 0 then ⟨1, 0, 0⟩ else if k = 1 then ⟨0, 1, 0⟩ else ⟨0, 0, 1⟩) 3 ∧
      sphere_rieszEnergy
        (fun i => rotate !![0, -1, 0; 1, 0, 0; 0, 0, 1]
          ((fun k => if k = 0 then ⟨1, 0, 0⟩ else if k = 1 then ⟨0, 1, 0⟩ else ⟨0, 0, 1⟩) i)) 3
        = sphere_rieszEnergy
          (fun k => if k = 0 then ⟨1, 0, 0⟩ else if k = 1 then ⟨0, 1, 0⟩ else ⟨0, 0, 1⟩) 3 :=
  objectives_rotation_invariant !![0, -1, 0; 1, 0, 0; 0, 0, 1]
    (fun k => if k = 0 then ⟨1, 0, 0⟩ else if k = 1 then ⟨0, 1, 0⟩ else ⟨0, 0, 1⟩) 3
    (by
      ext i j
      rw [Matrix.mul_apply, Fin.sum_univ_three]
      simp only [Matrix.transpose_apply]
      fin_cases i <;> fin_cases j <;> simp [Matrix.vecHead, Matrix.vecTail])
    (by simp [Matrix.det_fin_three])

/-! ## Closest pair, pushing apart, acceptance at the boundary -/

theorem sphere_moveApart_eq (pointA pointB : vector_t) (variance : ℝ) :
    sphere_moveApart pointA pointB variance
      = (vector_normalise (sphere_moveApart_vectors pointA pointB variance).1,
          vector_normalise (sphere_moveApart_vectors pointA pointB variance).2) := rfl

/-- C13 (the code departs from it).  With `0` points or with `1` point the loops of
`sphere_selectClosest` are empty and the pair it writes to `index_min` is the content of its
uninitialised locals: with the contents `7`, `9` it is `(7, 9)`, not the sentinel
`(-1, -1)`. -/
theorem sphere_selectClosest_few_points :
    (∀ (points : vector_array) (g1 g2 : ℤ),
        sphere_selectClosest points 0 g1 g2 = (g1, g2) ∧
          sphere_selectClosest points 1 g1 g2 = (g1, g2)) ∧
      sphere_selectClosest demo_point_single 1 7 9 = (7, 9) ∧
      sphere_selectClosest demo_point_single 1 7 9 ≠ (-1, -1) := by
  have h : ∀ (points : vector_array) (g1 g2 : ℤ),
      sphere_selectClosest points 0 g1 g2 = (g1, g2) ∧
        sphere_selectClosest points 1 g1 g2 = (g1, g2) := by
    intro points g1 g2
    constructor <;> simp [sphere_selectClosest]
  refine ⟨h, (h _ 7 9).2, ?_⟩
  rw [(h demo_point_single 7 9).2]
  intro hc
  have h7 := congrArg Prod.fst hc
  simp at h7

/-- C14 (the code departs from it).  For `A = (1, 0, 0)`, `B = (0, 1, 0)` and variance `0`,
`sphere_moveApart` stores `A + (A − B) = (2, -1, 0)` in `A`, as the claim says, but
`A − (A − B) = (0, 1, 0)` in `B` where the claim says `B − (A − B) = (-1, 2, 0)`; after the
normalisation `B` is `(0, 1, 0)`, unmoved, and differs from the normalised `(-1, 2, 0)`. -/
theorem sphere_moveApart_second_point :
    (sphere_moveApart_vectors ⟨1, 0, 0⟩ ⟨0, 1, 0⟩ 0).1 = ⟨2, -1, 0⟩ ∧
      (move_apart_vectors ⟨1, 0, 0⟩ ⟨0, 1, 0⟩ 0).1 = ⟨2, -1, 0⟩ ∧
      (sphere_moveApart_vectors ⟨1, 0, 0⟩ ⟨0, 1, 0⟩ 0).2 = ⟨0, 1, 0⟩ ∧
      (move_apart_vectors ⟨1, 0, 0⟩ ⟨0, 1, 0⟩ 0).2 = ⟨-1, 2, 0⟩ ∧
      (sphere_moveApart ⟨1, 0, 0⟩ ⟨0, 1, 0⟩ 0).2 = ⟨0, 1, 0⟩ ∧
      (sphere_moveApart ⟨1, 0, 0⟩ ⟨0, 1, 0⟩ 0).2 ≠ (move_apart ⟨1, 0, 0⟩ ⟨0, 1, 0⟩ 0).2 := by
  have hc : (sphere_moveApart_vectors ⟨1, 0, 0⟩ ⟨0, 1, 0⟩ 0).2 = ⟨0, 1, 0⟩ := by
    simp [sphere_moveApart_vectors]
  have hs : (move_apart_vectors ⟨1, 0, 0⟩ ⟨0, 1, 0⟩ 0).2 = ⟨-1, 2, 0⟩ := by
    simp only [move_apart_vectors]
    norm_num
  have hB : (sphere_moveApart ⟨1, 0, 0⟩ ⟨0, 1, 0⟩ 0).2 = ⟨0, 1, 0⟩ := by
    rw [sphere_moveApart_eq]
    simp only [hc]
    apply vector_normalise_of_unit
    simp [vector_dotProduct]
  refine ⟨?_, ?_, hc, hs, hB, ?_⟩
  · simp only [sphere_moveApart_vectors]
    norm_num
  · simp only [move_apart_vectors]
    norm_num
  · rw [hB]
    intro h
    have hx := congrArg vector_t.x h
    simp only [move_apart, hs, vector_normalise] at hx
    have h5 : (0 : ℝ) < Real.sqrt (vector_dotProduct ⟨-1, 2, 0⟩ ⟨-1, 2, 0⟩) := by
      apply Real.sqrt_pos.mpr
      simp only [vector_dotProduct]
      norm_num
    have h6 : (0 : ℝ) < 1 / Real.sqrt (vector_dotProduct ⟨-1, 2, 0⟩ ⟨-1, 2, 0⟩) :=
      one_div_pos.mpr h5
    linarith

/-- C15.  In an inner iteration of `sa_distance` at a temperature `T > 0`, a proposal with
`distance_new = distance_old` meets the threshold `expo = 1`: for every uniform draw in
`[0, 1)` it is accepted, that is, `v_new` is copied into `points[index]` and the line logged
carries the flag `accepted = 1`. -/
theorem sa_distance_accepts_zero_delta (n index : ℕ) (variance : ℝ) (rand : rand_t) (s : sa_vars)
    (_hT : 0 < s.temperature)
    (hdelta : sphere_distance (sa_distance_new_points index variance rand s) n
      - sphere_distance s.points n = 0)
    (_hu0 : 0 ≤ rand.drand48 s.iteration) (hu1 : rand.drand48 s.iteration < 1) :
    expo 0 s.temperature = 1 ∧
      (sa_distance_iteration n index variance rand s).points
        = Function.update s.points index (sa_distance_v_new index variance rand s) ∧
      (sa_distance_iteration n index variance rand s).log
        = s.log ++ [⟨s.iteration, sphere_distance s.points n, 0, s.temperature, variance, 1⟩] := by
  have he : expo 0 s.temperature = 1 := expo_of_small 0 _ (by norm_num) (by norm_num)
  have h1 : ¬ sphere_distance (sa_distance_new_points index variance rand s) n
      > sphere_distance s.points n := by
    have : sphere_distance (sa_distance_new_points index variance rand s) n
        = sphere_distance s.points n := by linarith
    rw [this]
    exact lt_irrefl _
  have h3 : rand.drand48 s.iteration
      < expo (sphere_distance (sa_distance_new_points index variance rand s) n
          - sphere_distance s.points n) s.temperature := by
    rw [hdelta, he]
    exact hu1
  refine ⟨he, ?_, ?_⟩
  · rw [sa_distance_iteration_accept n index variance rand s h1 h3]
  · rw [sa_distance_iteration_accept n index variance rand s h1 h3, hdelta]

/-- An inner iteration on the single point `(1, 0, 0)`: both distances are `0`, the draw is
`0`, and the proposal is accepted. -/
theorem sa_distance_accepts_zero_delta_witness :
    expo 0 (sa_init demo_point_single demo_args_single demo_stack).temperature = 1 ∧
      (sa_distance_iteration 1 0 demo_sigma demo_rand
          (sa_init demo_point_single demo_args_single demo_stack)).points
        = Function.update (sa_init demo_point_single demo_args_single demo_stack).points 0
            (sa_distance_v_new 0 demo_sigma demo_rand
              (sa_init demo_point_single demo_args_single demo_stack)) ∧
      (sa_distance_iteration 1 0 demo_sigma demo_rand
          (sa_init demo_point_single demo_args_single demo_stack)).log
        = (sa_init demo_point_single demo_args_single demo_stack).log ++
            [⟨(sa_init demo_point_single demo_args_single demo_stack).iteration,
              sphere_distance (sa_init demo_point_single demo_args_single demo_stack).points 1,
              0, (sa_init demo_point_single demo_args_single demo_stack).temperature,
              demo_sigma, 1⟩] :=
  sa_distance_accepts_zero_delta 1 0 demo_sigma demo_rand
    (sa_init demo_point_single demo_args_single demo_stack)
    (by simp [sa_init, demo_args_single])
    (by rw [sphere_distance_one, sphere_distance_one]; norm_num)
    (by simp [demo_rand]) (by simp [demo_rand])

/-- C16 (the code departs from it).  For the fixed `distance_delta = -1/2 < 0` the threshold
`expo` of `sa_distance` is `1` at every temperature, so it does not tend to `0` as the
temperature tends to `0` from above. -/
theorem expo_no_limit_small_delta :
    (-1 / 2 : ℝ) < 0 ∧ (∀ T : ℝ, expo (-1 / 2) T = 1) ∧
      ¬ Filter.Tendsto (fun T : ℝ => expo (-1 / 2) T) (nhdsWithin 0 (Set.Ioi 0)) (nhds 0) := by
  have h : ∀ T : ℝ, expo (-1 / 2) T = 1 := fun T =>
    expo_of_small _ T (by norm_num) (by norm_num)
  refine ⟨by norm_num, h, ?_⟩
  intro hlim
  have hfun : (fun T : ℝ => expo (-1 / 2) T) = fun _ => (1 : ℝ) := funext h
  rw [hfun] at hlim
  have h1 : Filter.Tendsto (fun _ : ℝ => (1 : ℝ)) (nhdsWithin 0 (Set.Ioi 0)) (nhds 1) :=
    tendsto_const_nhds
  exact zero_ne_one (tendsto_nhds_unique hlim h1)

/-! ## The variance schedule and the frame of an inner iteration -/

theorem sa_distance_v_new_walk (index : ℕ) (temperature : ℝ) (rand : rand_t) (s : sa_vars) :
    sa_distance_v_new index (sa_distance_variance temperature) rand s
      = sphere_walk (s.points index) (sa_distance_walk_variance temperature)
          (rand.normalRV (3 * s.iteration)) (rand.normalRV (3 * s.iteration + 1))
          (rand.normalRV (3 * s.iteration + 2)) := rfl

theorem sa_distance_variance_bounds (temperature : ℝ) (h : 0 < temperature) :
    0 < sa_distance_variance temperature ∧ sa_distance_variance temperature < 1 / 2 := by
  unfold sa_distance_variance
  have h1 : Real.exp (-0.5 * temperature) < 1 := by
    rw [Real.exp_lt_one_iff]
    linarith
  have h2 : 0 < Real.exp (-0.5 * temperature) := Real.exp_pos _
  constructor <;> linarith

/-- C18 fails as stated.  At temperature `1` the second argument of the call of
`sphere_walk` in `sa_distance` is the square of `0.5·(1 − exp(−0.5))`, which differs from
`0.5·(1 − exp(−0.5))`, and its square root, the standard deviation of the noise, differs
from `√(0.5·(1 − exp(−0.5)))`. -/
theorem sa_distance_walk_variance_squared :
    sa_distance_walk_variance 1 ≠ 0.5 * (1 - Real.exp (-0.5 * 1)) ∧
      Real.sqrt (sa_distance_walk_variance 1) ≠ Real.sqrt (0.5 * (1 - Real.exp (-0.5 * 1))) := by
  have hb := sa_distance_variance_bounds 1 (by norm_num)
  have hv : sa_distance_variance 1 = 0.5 * (1 - Real.exp (-0.5 * 1)) := rfl
  rw [← hv]
  have hlt : sa_distance_walk_variance 1 < sa_distance_variance 1 := by
    unfold sa_distance_walk_variance
    nlinarith [hb.1, hb.2]
  constructor
  · exact hlt.ne
  · exact (Real.sqrt_lt_sqrt (mul_self_nonneg _) hlt).ne

/-- C18, amended.  In `sa_distance`, at a temperature `T ≥ 0`, the variable `variance` is
`0.5·(1 − exp(−0.5·T))`, the variance argument passed to `sphere_walk` is its square, and the
normal noise added to each coordinate is scaled by the standard deviation
`0.5·(1 − exp(−0.5·T))`. -/
theorem sa_distance_walk_deviation (T : ℝ) (hT : 0 ≤ T) :
    sa_distance_variance T = 0.5 * (1 - Real.exp (-0.5 * T)) ∧
      sa_distance_walk_variance T = (0.5 * (1 - Real.exp (-0.5 * T))) ^ 2 ∧
      Real.sqrt (sa_distance_walk_variance T) = 0.5 * (1 - Real.exp (-0.5 * T)) ∧
      (∀ (index : ℕ) (rand : rand_t) (s : sa_vars),
        sa_distance_v_new index (sa_distance_variance T) rand s
          = vector_normalise
              ⟨(s.points index).x
                  + rand.normalRV (3 * s.iteration) * (0.5 * (1 - Real.exp (-0.5 * T))),
                (s.points index).y
                  + rand.normalRV (3 * s.iteration + 1) * (0.5 * (1 - Real.exp (-0.5 * T))),
                (s.points index).z
                  + rand.normalRV (3 * s.iteration + 2) * (0.5 * (1 - Real.exp (-0.5 * T)))⟩) := by
  have h0 : 0 ≤ sa_distance_variance T := by
    unfold sa_distance_variance
    have h1 : Real.exp (-0.5 * T) ≤ 1 := by
      rw [Real.exp_le_one_iff]
      linarith
    linarith
  have hs : Real.sqrt (sa_distance_walk_variance T) = sa_distance_variance T :=
    Real.sqrt_mul_self h0
  refine ⟨rfl, ?_, hs, ?_⟩
  · unfold sa_distance_walk_variance sa_distance_variance
    ring
  · intro index rand s
    rw [sa_distance_v_new_walk, sphere_walk]
    simp only [sphere_walk_vector, hs]
    rfl

/-- The schedule at temperature `1`. -/
theorem sa_distance_walk_deviation_witness :
    sa_distance_variance 1 = 0.5 * (1 - Real.exp (-0.5 * 1)) ∧
      sa_distance_walk_variance 1 = (0.5 * (1 - Real.exp (-0.5 * 1))) ^ 2 ∧
      Real.sqrt (sa_distance_walk_variance 1) = 0.5 * (1 - Real.exp (-0.5 * 1)) :=
  ⟨(sa_distance_walk_deviation 1 (by norm_num)).1, (sa_distance_walk_deviation 1 (by norm_num)).2.1,
    (sa_distance_walk_deviation 1 (by norm_num)).2.2.1⟩

/-- C19.  In an inner iteration of `sa_distance` every point of the current configuration at
an index other than the selected one is left as it is; moreover either the proposal is
rejected (flag `accepted = 0`) and the whole array `points` is unchanged, or it is accepted
(flag `accepted = 1`) and `points` is changed by the single store
`points[index] = v_new`. -/
theorem sa_distance_iteration_frame (n index : ℕ) (variance : ℝ) (rand : rand_t) (s : sa_vars)
    (i : ℕ) (hi : i ≠ index) :
    (sa_distance_iteration n index variance rand s).points i = s.points i ∧
      (((sa_distance_iteration n index variance rand s).points = s.points ∧
          ∃ r : sim_record, (sa_distance_iteration n index variance rand s).log = s.log ++ [r] ∧
            r.accepted = 0) ∨
        ((sa_distance_iteration n index variance rand s).points
            = Function.update s.points index (sa_distance_v_new index variance rand s) ∧
          ∃ r : sim_record, (sa_distance_iteration n index variance rand s).log = s.log ++ [r] ∧
            r.accepted = 1)) := by
  have hcases :
      ((sa_distance_iteration n index variance rand s).points = s.points ∧
          ∃ r : sim_record, (sa_distance_iteration n index variance rand s).log = s.log ++ [r] ∧
            r.accepted = 0) ∨
        ((sa_distance_iteration n index variance rand s).points
            = Function.update s.points index (sa_distance_v_new index variance rand s) ∧
          ∃ r : sim_record, (sa_distance_iteration n index variance rand s).log = s.log ++ [r] ∧
            r.accepted = 1) := by
    unfold sa_distance_iteration sa_distance_v_new
    simp only [vector_copy_eq]
    split_ifs
    · exact Or.inr ⟨rfl, _, rfl, rfl⟩
    · exact Or.inr ⟨rfl, _, rfl, rfl⟩
    · exact Or.inr ⟨rfl, _, rfl, rfl⟩
    · exact Or.inl ⟨rfl, _, rfl, rfl⟩
  refine ⟨?_, hcases⟩
  rcases hcases with h | h
  · rw [h.1]
  · rw [h.1, Function.update_noteq hi]

/-- The first inner iteration of the run on the antipodal pair selects index `0`; the point
at index `1` is left as it is. -/
theorem sa_distance_iteration_frame_witness :
    (sa_distance_iteration 2 0 demo_sigma demo_rand demo_s0).points 1 = demo_s0.points 1 :=
  (sa_distance_iteration_frame 2 0 demo_sigma demo_rand demo_s0 1 (by decide)).1

/-! ## The number of rounds of the annealing loops -/

theorem closest_inv_step (points : vector_array) (g1 g2 : ℤ) (n i J : ℕ) (st : closest_t)
    (hiJ : i < J) (hJn : J < n) (hD : distance (points i) (points J) < DBL_MAX)
    (h : closest_inv points g1 g2 (scanned n i J) st) :
    closest_inv points g1 g2 (scanned n i (J + 1))
      (if distance (points i) (points J) < st.dist_min then
        { dist_min := distance (points i) (points J), index_min_1 := (i : ℤ),
          index_min_2 := (J : ℤ) }
      else st) := by
  have hS : ∀ k l, scanned n i (J + 1) k l → scanned n i J k l ∨ (k = i ∧ l = J) := by
    intro k l hkl
    obtain ⟨h1, h2, h3⟩ := hkl
    rcases h3 with h3 | ⟨h3, h4⟩
    · exact Or.inl ⟨h1, h2, Or.inl h3⟩
    · by_cases hl : l = J
      · exact Or.inr ⟨h3, hl⟩
      · exact Or.inl ⟨h1, h2, Or.inr ⟨h3, by omega⟩⟩
  have hS' : ∀ k l, scanned n i J k l → scanned n i (J + 1) k l := by
    intro k l hkl
    obtain ⟨h1, h2, h3⟩ := hkl
    rcases h3 with h3 | ⟨h3, h4⟩
    · exact ⟨h1, h2, Or.inl h3⟩
    · exact ⟨h1, h2, Or.inr ⟨h3, by omega⟩⟩
  have hnew : scanned n i (J + 1) i J := ⟨hiJ, hJn, Or.inr ⟨rfl, by omega⟩⟩
  obtain ⟨hle, hcase⟩ := h
  split_ifs with hlt
  · refine ⟨?_, Or.inr ⟨i, J, hnew, rfl, ?_⟩⟩
    · intro k l hkl
      rcases hS k l hkl with h | ⟨hk, hl⟩
      · exact (lt_of_lt_of_le hlt (hle k l h)).le
      · subst hk
        subst hl
        exact le_refl _
    · intro k l hkl hlex
      rcases hS k l hkl with h | ⟨hk, hl⟩
      · exact lt_of_lt_of_le hlt (hle k l h)
      · omega
  · have hge := not_lt.mp hlt
    refine ⟨?_, ?_⟩
    · intro k l hkl
      rcases hS k l hkl with h | ⟨hk, hl⟩
      · exact hle k l h
      · subst hk
        subst hl
        exact hge
    · rcases hcase with ⟨hst, _⟩ | ⟨a, b, hab, hst, hlex⟩
      · exfalso
        rw [hst] at hge
        exact absurd hD (not_lt.mpr hge)
      · refine Or.inr ⟨a, b, hS' a b hab, hst, ?_⟩
        intro k l hkl hl
        rcases hS k l hkl with h | ⟨hk, hl'⟩
        · exact hlex k l h hl
        · exfalso
          obtain ⟨_, _, hab3⟩ := hab
          omega

theorem closest_inv_row (points : vector_array) (g1 g2 : ℤ) (n i : ℕ)
    (hD : ∀ k l, k < l → l < n → distance (points k) (points l) < DBL_MAX) :
    ∀ (len : ℕ) (st : closest_t), i + 1 + len ≤ n →
      closest_inv points g1 g2 (scanned n i (i + 1)) st →
      closest_inv points g1 g2 (scanned n i (i + 1 + len))
        ((List.range' (i + 1) len).foldl
          (fun (st : closest_t) j =>
            if distance (points i) (points j) < st.dist_min then
              { dist_min := distance (points i) (points j), index_min_1 := (i : ℤ),
                index_min_2 := (j : ℤ) }
            else st) st) := by
  intro len
  induction len with
  | zero =>
    intro st _ h
    simpa using h
  | succ len ih =>
    intro st hlen h
    rw [List.range'_concat, List.foldl_append]
    simp only [List.foldl_cons, List.foldl_nil, one_mul]
    exact closest_inv_step points g1 g2 n i (i + 1 + len) _ (by omega) (by omega)
      (hD _ _ (by omega) (by omega)) (ih st (by omega) h)

theorem closest_inv_rows (points : vector_array) (g1 g2 : ℤ) (n : ℕ)
    (hD : ∀ k l, k < l → l < n → distance (points k) (points l) < DBL_MAX) :
    ∀ m : ℕ, m + 1 ≤ n →
      closest_inv points g1 g2 (scanned n m (m + 1))
        ((List.range m).foldl
          (fun (st : closest_t) i =>
            (List.range' (i + 1) (n - (i + 1))).foldl
              (fun (st : closest_t) j =>
                if distance (points i) (points j) < st.dist_min then
                  { dist_min := distance (points i) (points j), index_min_1 := (i : ℤ),
                    index_min_2 := (j : ℤ) }
                else st) st)
          { dist_min := DBL_MAX, index_min_1 := g1, index_min_2 := g2 }) := by
  intro m
  induction m with
  | zero =>
    intro _
    refine ⟨?_, Or.inl ⟨rfl, ?_⟩⟩
    · intro k l hkl
      obtain ⟨_, _, h3⟩ := hkl
      omega
    · intro k l hkl
      obtain ⟨_, _, h3⟩ := hkl
      omega
  | succ m ih =>
    intro hm
    rw [List.range_succ, List.foldl_append]
    simp only [List.foldl_cons, List.foldl_nil]
    have hrow := closest_inv_row points g1 g2 n m hD (n - (m + 1)) _ (by omega) (ih (by omega))
    have hn : m + 1 + (n - (m + 1)) = n := by omega
    rw [hn] at hrow
    have hset : scanned n (m + 1) (m + 1 + 1) = scanned n m n := by
      funext k l
      apply propext
      unfold scanned
      constructor
      · rintro ⟨h1, h2, h3⟩
        exact ⟨h1, h2, by omega⟩
      · rintro ⟨h1, h2, h3⟩
        exact ⟨h1, h2, by omega⟩
    rw [hset]
    exact hrow

/-- The pair returned by `sphere_selectClosest` when every distance is below `DBL_MAX`: it is
a pair `a < b < n` at minimal distance, and every pair before it in scan order is strictly
farther apart. -/
theorem sphere_selectClosest_first_minimum (points : vector_array) (n : ℕ) (g1 g2 : ℤ)
    (hn : 2 ≤ n)
    (hD : ∀ k l, k < l → l < n → distance (points k) (points l) < DBL_MAX) :
    ∃ a b : ℕ, sphere_selectClosest points n g1 g2 = ((a : ℤ), (b : ℤ)) ∧ a < b ∧ b < n ∧
      (∀ k l, k < l → l < n →
        distance (points a) (points b) ≤ distance (points k) (points l)) ∧
      (∀ k l, k < l → l < n → (k < a ∨ (k = a ∧ l < b)) →
        distance (points a) (points b) < distance (points k) (points l)) := by
  have hinv := closest_inv_rows points g1 g2 n hD (n - 1) (by omega)
  have hall : ∀ k l, k < l → l < n → scanned n (n - 1) (n - 1 + 1) k l := by
    intro k l h1 h2
    exact ⟨h1, h2, Or.inl (by omega)⟩
  obtain ⟨hle, hcase⟩ := hinv
  rcases hcase with ⟨_, hemp⟩ | ⟨a, b, hab, hst, hlex⟩
  · exact absurd (hall 0 1 (by omega) (by omega)) (hemp 0 1)
  · refine ⟨a, b, ?_, hab.1, hab.2.1, ?_, ?_⟩
    · unfold sphere_selectClosest
      simp only []
      rw [hst]
    · intro k l h1 h2
      have := hle k l (hall k l h1 h2)
      rw [hst] at this
      exact this
    · intro k l h1 h2 h3
      exact hlex k l (hall k l h1 h2) h3

theorem two_lt_DBL_MAX : 2 < DBL_MAX := by
  unfold DBL_MAX
  have h1 : (1 : ℝ) ≤ 2 - 2⁻¹ ^ 52 := by
    have : (2⁻¹ : ℝ) ^ 52 ≤ 1 := pow_le_one₀ (by norm_num) (by norm_num)
    linarith
  have h2 : (4 : ℝ) ≤ 2 ^ 1023 := by
    have : (2 : ℝ) ^ 2 ≤ 2 ^ 1023 := pow_le_pow_right₀ (by norm_num) (by norm_num)
    linarith
  nlinarith

theorem distance_le_two (a b : vector_t) (ha : Real.sqrt (vector_dotProduct a a) = 1)
    (hb : Real.sqrt (vector_dotProduct b b) = 1) : distance a b ≤ 2 := by
  have ha1 : vector_dotProduct a a = 1 := Real.sqrt_eq_one.mp ha
  have hb1 : vector_dotProduct b b = 1 := Real.sqrt_eq_one.mp hb
  unfold vector_dotProduct at ha1 hb1
  simp only [distance, euclideanDistance, vector_dotProduct]
  rw [Real.sqrt_le_iff]
  refine ⟨by norm_num, ?_⟩
  nlinarith [sq_nonneg (a.x + b.x), sq_nonneg (a.y + b.y), sq_nonneg (a.z + b.z)]

theorem distance_lt_DBL_MAX_of_unit (points : vector_array) (n : ℕ)
    (hunit : ∀ i, i < n → Real.sqrt (vector_dotProduct (points i) (points i)) = 1) :
    ∀ k l, k < l → l < n → distance (points k) (points l) < DBL_MAX := by
  intro k l hkl hl
  exact lt_of_le_of_lt (distance_le_two _ _ (hunit k (by omega)) (hunit l hl)) two_lt_DBL_MAX

theorem demo_triple_unit :
    ∀ i, i < 3 → Real.sqrt (vector_dotProduct (demo_triple i) (demo_triple i)) = 1 := by
  intro i hi
  interval_cases i <;> simp [demo_triple, vector_dotProduct]

/-- C11.  For every configuration of `n ≥ 2` points on the unit sphere,
`sphere_selectClosest` returns an index pair `(i, j)` with `i < j < n` whose Euclidean
distance is minimal among the pairs `k < l < n`. -/
theorem sphere_selectClosest_minimal (points : vector_array) (n : ℕ) (g1 g2 : ℤ) (hn : 2 ≤ n)
    (hunit : ∀ i, i < n → Real.sqrt (vector_dotProduct (points i) (points i)) = 1) :
    ∃ i j : ℕ, sphere_selectClosest points n g1 g2 = ((i : ℤ), (j : ℤ)) ∧ i < j ∧ j < n ∧
      ∀ k l, k < l → l < n →
        distance (points i) (points j) ≤ distance (points k) (points l) := by
  obtain ⟨a, b, h1, h2, h3, h4, _⟩ := sphere_selectClosest_first_minimum points n g1 g2 hn
    (distance_lt_DBL_MAX_of_unit points n hunit)
  exact ⟨a, b, h1, h2, h3, h4⟩

/-- The scan of the three points `demo_triple` returns a pair at minimal distance. -/
theorem sphere_selectClosest_minimal_witness :
    ∃ i j : ℕ, sphere_selectClosest demo_triple 3 0 0 = ((i : ℤ), (j : ℤ)) ∧ i < j ∧ j < 3 ∧
      ∀ k l, k < l → l < 3 →
        distance (demo_triple i) (demo_triple j) ≤ distance (demo_triple k) (demo_triple l) :=
  sphere_selectClosest_minimal demo_triple 3 0 0 (by norm_num) demo_triple_unit

/-- C12.  For every configuration of `n ≥ 2` unit points, with or without ties,
`sphere_selectClosest` returns the first pair in `(i, j)` scan order among those at minimal
distance: the pair returned attains the minimum, and no pair `k < l < n` that precedes it in
scan order has a distance equal to the minimum. -/
theorem sphere_selectClosest_first_of_ties (points : vector_array) (n : ℕ) (g1 g2 : ℤ)
    (hn : 2 ≤ n)
    (hunit : ∀ i, i < n → Real.sqrt (vector_dotProduct (points i) (points i)) = 1) :
    ∃ i j : ℕ, sphere_selectClosest points n g1 g2 = ((i : ℤ), (j : ℤ)) ∧ i < j ∧ j < n ∧
      (∀ k l, k < l → l < n →
        distance (points i) (points j) ≤ distance (points k) (points l)) ∧
      ∀ k l, k < l → l < n → (k < i ∨ (k = i ∧ l < j)) →
        distance (points k) (points l) ≠ distance (points i) (points j) := by
  obtain ⟨a, b, h1, h2, h3, h4, h5⟩ := sphere_selectClosest_first_minimum points n g1 g2 hn
    (distance_lt_DBL_MAX_of_unit points n hunit)
  exact ⟨a, b, h1, h2, h3, h4, fun k l hkl hl hlex => (h5 k l hkl hl hlex).ne'⟩

/-- The three pairs of `demo_triple` are all at the minimal distance `√2`; the scan returns
the first of them, `(0, 1)`. -/
theorem sphere_selectClosest_first_of_ties_witness :
    (distance (demo_triple 0) (demo_triple 1) = distance (demo_triple 0) (demo_triple 2) ∧
      distance (demo_triple 0) (demo_triple 1) = distance (demo_triple 1) (demo_triple 2)) ∧
    ∃ i j : ℕ, sphere_selectClosest demo_triple 3 0 0 = ((i : ℤ), (j : ℤ)) ∧ i < j ∧ j < 3 ∧
      (∀ k l, k < l → l < 3 →
        distance (demo_triple i) (demo_triple j) ≤ distance (demo_triple k) (demo_triple l)) ∧
      ∀ k l, k < l → l < 3 → (k < i ∨ (k = i ∧ l < j)) →
        distance (demo_triple k) (demo_triple l) ≠ distance (demo_triple i) (demo_triple j) :=
  ⟨by
      constructor <;>
        simp [demo_triple, distance, euclideanDistance, vector_dotProduct],
    sphere_selectClosest_first_of_ties demo_triple 3 0 0 (by norm_num) demo_triple_unit⟩

/-! ## Pushing a pair of unit points apart -/

theorem vector_dotProduct_of_unit (v : vector_t) (h : Real.sqrt (vector_dotProduct v v) = 1) :
    vector_dotProduct v v = 1 := Real.sqrt_eq_one.mp h

theorem vector_dotProduct_unit_bounds (A B : vector_t) (hA : vector_dotProduct A A = 1)
    (hB : vector_dotProduct B B = 1) :
    -1 ≤ vector_dotProduct A B ∧ vector_dotProduct A B ≤ 1 := by
  unfold vector_dotProduct at hA hB ⊢
  constructor
  · nlinarith [sq_nonneg (A.x + B.x), sq_nonneg (A.y + B.y), sq_nonneg (A.z + B.z)]
  · nlinarith [sq_nonneg (A.x - B.x), sq_nonneg (A.y - B.y), sq_nonneg (A.z - B.z)]

theorem vector_dotProduct_diff (p q : vector_t) :
    vector_dotProduct ⟨p.x - q.x, p.y - q.y, p.z - q.z⟩ ⟨p.x - q.x, p.y - q.y, p.z - q.z⟩
      = vector_dotProduct p p + vector_dotProduct q q - 2 * vector_dotProduct p q := by
  unfold vector_dotProduct
  ring

/-- The three dot products of the vectors `a = A + u(A − B)` and `b = A − u(A − B)` that
`sphere_moveApart` builds from unit points, with `u = 1 + variance` and `c = A·B`. -/
theorem sphere_moveApart_vectors_dots (A B : vector_t) (t : ℝ)
    (hA : vector_dotProduct A A = 1) (hB : vector_dotProduct B B = 1) :
    vector_dotProduct (sphere_moveApart_vectors A B t).1 (sphere_moveApart_vectors A B t).1
        = (1 + (1 + t)) ^ 2 + (1 + t) ^ 2
          - 2 * (1 + t) * (1 + (1 + t)) * vector_dotProduct A B ∧
      vector_dotProduct (sphere_moveApart_vectors A B t).2 (sphere_moveApart_vectors A B t).2
        = (1 - (1 + t)) ^ 2 + (1 + t) ^ 2
          + 2 * (1 + t) * (1 - (1 + t)) * vector_dotProduct A B ∧
      vector_dotProduct (sphere_moveApart_vectors A B t).1 (sphere_moveApart_vectors A B t).2
        = 1 - 2 * (1 + t) ^ 2 + 2 * (1 + t) ^ 2 * vector_dotProduct A B := by
  unfold vector_dotProduct at hA hB
  simp only [sphere_moveApart_vectors, vector_dotProduct]
  refine ⟨?_, ?_, ?_⟩
  · linear_combination (1 + (1 + t)) ^ 2 * hA + (1 + t) ^ 2 * hB
  · linear_combination (1 - (1 + t)) ^ 2 * hA + (1 + t) ^ 2 * hB
  · linear_combination (1 - (1 + t) ^ 2) * hA - (1 + t) ^ 2 * hB

theorem sphere_moveApart_vectors_dots_ge (A B : vector_t) (t : ℝ)
    (hA : vector_dotProduct A A = 1) (hB : vector_dotProduct B B = 1) (ht : 0 ≤ t) :
    1 ≤ vector_dotProduct (sphere_moveApart_vectors A B t).1 (sphere_moveApart_vectors A B t).1 ∧
      1 ≤ vector_dotProduct (sphere_moveApart_vectors A B t).2
        (sphere_moveApart_vectors A B t).2 := by
  obtain ⟨h1, h2, _⟩ := sphere_moveApart_vectors_dots A B t hA hB
  obtain ⟨_, hc⟩ := vector_dotProduct_unit_bounds A B hA hB
  rw [h1, h2]
  constructor
  · nlinarith [mul_nonneg (mul_nonneg (by linarith : (0 : ℝ) ≤ 1 + t)
      (by linarith : (0 : ℝ) ≤ 1 + (1 + t))) (by linarith : (0 : ℝ) ≤ 1 - vector_dotProduct A B)]
  · nlinarith [mul_nonneg (mul_nonneg (by linarith : (0 : ℝ) ≤ 1 + t) ht)
      (by linarith : (0 : ℝ) ≤ 1 - vector_dotProduct A B)]

/-- C25.  For every pair of unit points `A`, `B` and every variance `≥ 0`, neither vector
that `sphere_moveApart` passes to `vector_normalise` is the zero vector, and both points it
returns have norm `1`. -/
theorem sphere_moveApart_unit (A B : vector_t) (variance : ℝ)
    (hA : Real.sqrt (vector_dotProduct A A) = 1) (hB : Real.sqrt (vector_dotProduct B B) = 1)
    (hv : 0 ≤ variance) :
    (sphere_moveApart_vectors A B variance).1 ≠ ⟨0, 0, 0⟩ ∧
      (sphere_moveApart_vectors A B variance).2 ≠ ⟨0, 0, 0⟩ ∧
      Real.sqrt (vector_dotProduct (sphere_moveApart A B variance).1
        (sphere_moveApart A B variance).1) = 1 ∧
      Real.sqrt (vector_dotProduct (sphere_moveApart A B variance).2
        (sphere_moveApart A B variance).2) = 1 := by
  obtain ⟨h1, h2⟩ := sphere_moveApart_vectors_dots_ge A B variance
    (vector_dotProduct_of_unit A hA) (vector_dotProduct_of_unit B hB) hv
  have n1 : vector_dotProduct (sphere_moveApart_vectors A B variance).1
      (sphere_moveApart_vectors A B variance).1 ≠ 0 := by linarith
  have n2 : vector_dotProduct (sphere_moveApart_vectors A B variance).2
      (sphere_moveApart_vectors A B variance).2 ≠ 0 := by linarith
  refine ⟨fun h => n1 ((vector_dotProduct_self_eq_zero _).mpr h),
    fun h => n2 ((vector_dotProduct_self_eq_zero _).mpr h), ?_, ?_⟩
  · rw [sphere_moveApart_eq]
    exact vector_normalise_norm _ n1
  · rw [sphere_moveApart_eq]
    exact vector_normalise_norm _ n2

/-- The pair `(1, 0, 0)`, `(0, 1, 0)` pushed apart with variance `1/100`. -/
theorem sphere_moveApart_unit_witness :
    (sphere_moveApart_vectors ⟨1, 0, 0⟩ ⟨0, 1, 0⟩ (1 / 100)).1 ≠ ⟨0, 0, 0⟩ ∧
      (sphere_moveApart_vectors ⟨1, 0, 0⟩ ⟨0, 1, 0⟩ (1 / 100)).2 ≠ ⟨0, 0, 0⟩ ∧
      Real.sqrt (vector_dotProduct (sphere_moveApart ⟨1, 0, 0⟩ ⟨0, 1, 0⟩ (1 / 100)).1
        (sphere_moveApart ⟨1, 0, 0⟩ ⟨0, 1, 0⟩ (1 / 100)).1) = 1 ∧
      Real.sqrt (vector_dotProduct (sphere_moveApart ⟨1, 0, 0⟩ ⟨0, 1, 0⟩ (1 / 100)).2
        (sphere_moveApart ⟨1, 0, 0⟩ ⟨0, 1, 0⟩ (1 / 100)).2) = 1 :=
  sphere_moveApart_unit ⟨1, 0, 0⟩ ⟨0, 1, 0⟩ (1 / 100) (by simp [vector_dotProduct])
    (by simp [vector_dotProduct]) (by norm_num)

/-- The scalar inequality behind the push: with `c = A·B`, `u = 1 + variance ≥ 1` and the
dot products `aa`, `bb`, `ab` of the two vectors built, `ab ≤ c · √aa · √bb`. -/
theorem push_apart_scalar (c u aa bb ab P : ℝ) (hc1 : -1 ≤ c) (hc2 : c ≤ 1) (hu : 1 ≤ u)
    (haa : aa = (1 + u) ^ 2 + u ^ 2 - 2 * u * (1 + u) * c)
    (hbb : bb = (1 - u) ^ 2 + u ^ 2 + 2 * u * (1 - u) * c)
    (hab : ab = 1 - 2 * u ^ 2 + 2 * u ^ 2 * c)
    (hP0 : 0 < P) (hP : P * P = aa * bb) : ab ≤ c * P := by
  have hF : c ^ 2 * (aa * bb) - ab ^ 2
      = (1 - c ^ 2) * (4 * u ^ 2 - 1 - 2 * u ^ 2 * (2 - 2 * c)
          + u ^ 2 * (2 - 2 * c) ^ 2 * (1 - u ^ 2)) := by
    rw [haa, hbb, hab]
    ring
  have hc0 : 0 ≤ 1 - c ^ 2 := by nlinarith
  have hu2 : 1 ≤ u ^ 2 := by nlinarith
  have hcP : (c * P) * (c * P) = c ^ 2 * (aa * bb) := by
    rw [← hP]
    ring
  by_cases hc : 0 ≤ c
  · by_contra h
    push_neg at h
    have h0 : 0 ≤ c * P := mul_nonneg hc hP0.le
    have hsq : (c * P) * (c * P) < ab * ab := mul_self_lt_mul_self h0 h
    have hab0 : 0 < ab := lt_of_le_of_lt h0 h
    have hx0 : 0 ≤ u ^ 2 * (2 - 2 * c) := mul_nonneg (by positivity) (by linarith)
    have hx1 : u ^ 2 * (2 - 2 * c) < 1 := by
      rw [hab] at hab0
      linarith
    have hG : 0 ≤ 4 * u ^ 2 - 1 - 2 * u ^ 2 * (2 - 2 * c)
        + u ^ 2 * (2 - 2 * c) ^ 2 * (1 - u ^ 2) := by
      have e : 4 * u ^ 2 - 1 - 2 * u ^ 2 * (2 - 2 * c) + u ^ 2 * (2 - 2 * c) ^ 2 * (1 - u ^ 2)
          = 4 * (u ^ 2 - 1) + (1 - u ^ 2 * (2 - 2 * c)) * (3 + u ^ 2 * (2 - 2 * c))
            + u ^ 2 * (2 - 2 * c) * (2 - 2 * c) := by ring
      rw [e]
      have t1 : 0 ≤ 4 * (u ^ 2 - 1) := by linarith
      have t2 : 0 ≤ (1 - u ^ 2 * (2 - 2 * c)) * (3 + u ^ 2 * (2 - 2 * c)) :=
        mul_nonneg (by linarith) (by linarith)
      have t3 : 0 ≤ u ^ 2 * (2 - 2 * c) * (2 - 2 * c) := mul_nonneg hx0 (by linarith)
      linarith
    have hF0 : 0 ≤ c ^ 2 * (aa * bb) - ab ^ 2 := by
      rw [hF]
      exact mul_nonneg hc0 hG
    nlinarith
  · push_neg at hc
    by_contra h
    push_neg at h
    have hab0 : ab < 0 := by
      rw [hab]
      nlinarith
    have hsq : (-ab) * (-ab) < (-(c * P)) * (-(c * P)) :=
      mul_self_lt_mul_self (by linarith) (by linarith)
    have hG : 4 * u ^ 2 - 1 - 2 * u ^ 2 * (2 - 2 * c)
        + u ^ 2 * (2 - 2 * c) ^ 2 * (1 - u ^ 2) ≤ 0 := by
      have e : 4 * u ^ 2 - 1 - 2 * u ^ 2 * (2 - 2 * c) + u ^ 2 * (2 - 2 * c) ^ 2 * (1 - u ^ 2)
          = -1 - (4 * u ^ 2 * (-c) + u ^ 2 * (2 - 2 * c) ^ 2 * (u ^ 2 - 1)) := by ring
      rw [e]
      have t1 : 0 ≤ 4 * u ^ 2 * (-c) := mul_nonneg (by positivity) (by linarith)
      have t2 : 0 ≤ u ^ 2 * (2 - 2 * c) ^ 2 * (u ^ 2 - 1) :=
        mul_nonneg (by positivity) (by linarith)
      linarith
    have hF0 : c ^ 2 * (aa * bb) - ab ^ 2 ≤ 0 := by
      rw [hF]
      exact mul_nonpos_of_nonneg_of_nonpos hc0 hG
    nlinarith

/-- C24.  For every pair of unit points `A`, `B` and every variance `≥ 0`, the two points
that `sphere_moveApart` returns are at least as far apart as `A` and `B` are. -/
theorem sphere_moveApart_pushes_apart (A B : vector_t) (variance : ℝ)
    (hA : Real.sqrt (vector_dotProduct A A) = 1) (hB : Real.sqrt (vector_dotProduct B B) = 1)
    (hv : 0 ≤ variance) :
    distance A B
      ≤ distance (sphere_moveApart A B variance).1 (sphere_moveApart A B variance).2 := by
  have hA1 := vector_dotProduct_of_unit A hA
  have hB1 := vector_dotProduct_of_unit B hB
  obtain ⟨haa, hbb, hab⟩ := sphere_moveApart_vectors_dots A B variance hA1 hB1
  obtain ⟨ga, gb⟩ := sphere_moveApart_vectors_dots_ge A B variance hA1 hB1 hv
  obtain ⟨hc1, hc2⟩ := vector_dotProduct_unit_bounds A B hA1 hB1
  have pa : 0 < vector_dotProduct (sphere_moveApart_vectors A B variance).1
      (sphere_moveApart_vectors A B variance).1 := by linarith
  have pb : 0 < vector_dotProduct (sphere_moveApart_vectors A B variance).2
      (sphere_moveApart_vectors A B variance).2 := by linarith
  have sa := Real.sqrt_pos.mpr pa
  have sb := Real.sqrt_pos.mpr pb
  have hP : (Real.sqrt (vector_dotProduct (sphere_moveApart_vectors A B variance).1
        (sphere_moveApart_vectors A B variance).1)
      * Real.sqrt (vector_dotProduct (sphere_moveApart_vectors A B variance).2
        (sphere_moveApart_vectors A B variance).2))
      * (Real.sqrt (vector_dotProduct (sphere_moveApart_vectors A B variance).1
        (sphere_moveApart_vectors A B variance).1)
      * Real.sqrt (vector_dotProduct (sphere_moveApart_vectors A B variance).2
        (sphere_moveApart_vectors A B variance).2))
      = vector_dotProduct (sphere_moveApart_vectors A B variance).1
          (sphere_moveApart_vectors A B variance).1
        * vector_dotProduct (sphere_moveApart_vectors A B variance).2
          (sphere_moveApart_vectors A B variance).2 := by
    rw [mul_mul_mul_comm, Real.mul_self_sqrt pa.le, Real.mul_self_sqrt pb.le]
  have key := push_apart_scalar (vector_dotProduct A B) (1 + variance) _ _ _ _ hc1 hc2
    (by linarith) haa hbb hab (mul_pos sa sb) hP
  have hn : vector_dotProduct (vector_normalise (sphere_moveApart_vectors A B variance).1)
      (vector_normalise (sphere_moveApart_vectors A B variance).2)
      = vector_dotProduct (sphere_moveApart_vectors A B variance).1
          (sphere_moveApart_vectors A B variance).2
        / (Real.sqrt (vector_dotProduct (sphere_moveApart_vectors A B variance).1
            (sphere_moveApart_vectors A B variance).1)
          * Real.sqrt (vector_dotProduct (sphere_moveApart_vectors A B variance).2
            (sphere_moveApart_vectors A B variance).2)) := by
    have e : ∀ (p q : vector_t) (s r : ℝ),
        vector_dotProduct ⟨p.x * (1 / s), p.y * (1 / s), p.z * (1 / s)⟩
            ⟨q.x * (1 / r), q.y * (1 / r), q.z * (1 / r)⟩
          = vector_dotProduct p q / (s * r) := by
      intro p q s r
      simp only [vector_dotProduct]
      field_simp
    exact e _ _ _ _
  rw [sphere_moveApart_eq]
  simp only [distance, euclideanDistance]
  apply Real.sqrt_le_sqrt
  rw [vector_dotProduct_diff A B, vector_dotProduct_diff (vector_normalise _) (vector_normalise _),
    hA1, hB1, vector_normalise_dot _ pa.ne', vector_normalise_dot _ pb.ne', hn]
  have hdiv : vector_dotProduct (sphere_moveApart_vectors A B variance).1
        (sphere_moveApart_vectors A B variance).2
      / (Real.sqrt (vector_dotProduct (sphere_moveApart_vectors A B variance).1
          (sphere_moveApart_vectors A B variance).1)
        * Real.sqrt (vector_dotProduct (sphere_moveApart_vectors A B variance).2
          (sphere_moveApart_vectors A B variance).2)) ≤ vector_dotProduct A B :=
    (div_le_iff₀ (mul_pos sa sb)).mpr key
  linarith

/-- The pair `(1, 0, 0)`, `(0, 1, 0)` pushed apart with variance `1/100` is at least as far
apart as before. -/
theorem sphere_moveApart_pushes_apart_witness :
    distance ⟨1, 0, 0⟩ ⟨0, 1, 0⟩
      ≤ distance (sphere_moveApart ⟨1, 0, 0⟩ ⟨0, 1, 0⟩ (1 / 100)).1
          (sphere_moveApart ⟨1, 0, 0⟩ ⟨0, 1, 0⟩ (1 / 100)).2 :=
  sphere_moveApart_pushes_apart ⟨1, 0, 0⟩ ⟨0, 1, 0⟩ (1 / 100) (by simp [vector_dotProduct])
    (by simp [vector_dotProduct]) (by norm_num)

/-! ## The variance schedule along a run -/

theorem sa_distance_variance_lt (T1 T2 : ℝ) (h : T1 < T2) :
    sa_distance_variance T1 < sa_distance_variance T2 := by
  unfold sa_distance_variance
  have : Real.exp (-0.5 * T2) < Real.exp (-0.5 * T1) := by
    rw [Real.exp_lt_exp]
    linarith
  linarith

theorem sa_distance_variance_tendsto :
    Filter.Tendsto sa_distance_variance (nhds 0) (nhds 0) := by
  have hc : Continuous sa_distance_variance := by
    unfold sa_distance_variance
    fun_prop
  have h0 : sa_distance_variance 0 = 0 := by
    unfold sa_distance_variance
    simp
  have := hc.tendsto 0
  rwa [h0] at this

/-- C29.  The scheduled variance `v(T) = 0.5·(1 − exp(−0.5·T))` of `sa_distance` satisfies
`0 < v(T1) < v(T2) < 0.5` for all `0 < T1 < T2`, tends to `0` as `T` tends to `0`, and in a
run with damping in `(0, 1)` a round entered at a temperature `> 0` leaves a temperature
that is still `> 0` and at which the scheduled variance is strictly smaller. -/
theorem sa_distance_variance_shrinks (T1 T2 : ℝ) (h1 : 0 < T1) (h12 : T1 < T2)
    (globalArgs : globalArgs_t) (rand : rand_t) (lvl : ℕ) (s : sa_vars)
    (hs : 0 < s.temperature) (hd0 : 0 < globalArgs.damping) (hd1 : globalArgs.damping < 1) :
    (0 < sa_distance_variance T1 ∧ sa_distance_variance T1 < sa_distance_variance T2 ∧
        sa_distance_variance T2 < 0.5) ∧
      (∀ T, sa_distance_variance T = 0.5 * (1 - Real.exp (-0.5 * T))) ∧
      Filter.Tendsto sa_distance_variance (nhds 0) (nhds 0) ∧
      0 < (sa_distance_round globalArgs rand lvl s).temperature ∧
      sa_distance_variance (sa_distance_round globalArgs rand lvl s).temperature
        < sa_distance_variance s.temperature := by
  have ht : (sa_distance_round globalArgs rand lvl s).temperature
      = globalArgs.damping * s.temperature := by
    rw [sa_distance_round_temperature]
    rfl
  refine ⟨⟨(sa_distance_variance_bounds T1 h1).1, sa_distance_variance_lt T1 T2 h12, ?_⟩,
    fun _ => rfl, sa_distance_variance_tendsto, ?_, ?_⟩
  · have := (sa_distance_variance_bounds T2 (by linarith)).2
    norm_num at this ⊢
    exact this
  · rw [ht]
    exact mul_pos hd0 hs
  · rw [ht]
    apply sa_distance_variance_lt
    nlinarith

/-- The schedule at the temperatures `1 < 2`, and the first round of the run on the
antipodal pair, which cools from `1` to `1/20`. -/
theorem sa_distance_variance_shrinks_witness :
    (0 < sa_distance_variance 1 ∧ sa_distance_variance 1 < sa_distance_variance 2 ∧
        sa_distance_variance 2 < 0.5) ∧
      sa_distance_variance (sa_distance_round demo_args demo_rand 0 demo_s0).temperature
        < sa_distance_variance demo_s0.temperature := by
  have h := sa_distance_variance_shrinks 1 2 (by norm_num) (by norm_num) demo_args demo_rand 0
    demo_s0 (by simp [demo_s0, sa_init, demo_args]) (by simp [demo_args])
    (by simp only [demo_args]; norm_num)
  exact ⟨h.1, h.2.2.2.2⟩

/-! ## One index per round -/

theorem sa_distance_iteration_points_other (n index : ℕ) (variance : ℝ) (rand : rand_t)
    (s : sa_vars) (i : ℕ) (hi : i ≠ index) :
    (sa_distance_iteration n index variance rand s).points i = s.points i := by
  unfold sa_distance_iteration
  simp only []
  split_ifs <;> simp [Function.update_noteq hi]

theorem sa_energy_iteration_points_other (n index : ℕ) (variance : ℝ) (rand : rand_t)
    (s : sa_energy_vars) (i : ℕ) (hi : i ≠ index) :
    (sa_energy_iteration n index variance rand s).points i = s.points i := by
  unfold sa_energy_iteration
  simp only []
  split_ifs <;> simp [Function.update_noteq hi]

theorem sa_distance_round_points_other (globalArgs : globalArgs_t) (rand : rand_t) (lvl : ℕ)
    (s : sa_vars) (i : ℕ) (hi : i ≠ selectPoint (rand.lrand48 lvl) globalArgs.n) :
    (sa_distance_round globalArgs rand lvl s).points i = s.points i := by
  unfold sa_distance_round
  exact foldl_invariant (fun a b : sa_vars => b.points i = a.points i)
    (fun _ => rfl) (fun _ _ _ h1 h2 => h2.trans h1) _
    (fun t _ => sa_distance_iteration_points_other _ _ _ rand t i hi) _ s

theorem sa_energy_round_points_other (globalArgs : globalArgs_t) (rand : rand_t) (lvl : ℕ)
    (s : sa_energy_vars) (i : ℕ) (hi : i ≠ selectPoint (rand.lrand48 lvl) globalArgs.n) :
    (sa_energy_round globalArgs rand lvl s).points i = s.points i := by
  unfold sa_energy_round
  exact foldl_invariant (fun a b : sa_energy_vars => b.points i = a.points i)
    (fun _ => rfl) (fun _ _ _ h1 h2 => h2.trans h1) _
    (fun t _ => sa_energy_iteration_points_other _ _ _ rand t i hi) _ s

/-- C26 fails as stated.  With the parameters `demo_args` a temperature level has two inner
iterations; whatever the random draws and the variables on entry, `sa_distance` and
`sa_energy` give both iterations the one index drawn by the single call of `selectPoint` at
the start of the round, and the point at every other index is the same after the round as
before: two consecutive iterations of a level never perturb different points. -/
theorem sa_round_single_index :
    demo_args.iter = 2 ∧
      (∀ (rand : rand_t) (lvl : ℕ) (s : sa_vars),
        sa_distance_round demo_args rand lvl s
            = { sa_distance_iteration demo_args.n (selectPoint (rand.lrand48 lvl) demo_args.n)
                  (sa_distance_variance s.temperature) rand
                  (sa_distance_iteration demo_args.n
                    (selectPoint (rand.lrand48 lvl) demo_args.n)
                    (sa_distance_variance s.temperature) rand s) with
                temperature := anneal s.temperature demo_args.damping } ∧
          ∀ i, i ≠ selectPoint (rand.lrand48 lvl) demo_args.n →
            (sa_distance_round demo_args rand lvl s).points i = s.points i) ∧
      (∀ (rand : rand_t) (lvl : ℕ) (e : sa_energy_vars) (i : ℕ),
        i ≠ selectPoint (rand.lrand48 lvl) demo_args.n →
          (sa_energy_round demo_args rand lvl e).points i = e.points i) := by
  refine ⟨rfl, ?_, ?_⟩
  · intro rand lvl s
    constructor
    · have h := sa_distance_round_temperature demo_args rand lvl s
      have e : sa_distance_round demo_args rand lvl s
          = { sa_distance_iteration demo_args.n (selectPoint (rand.lrand48 lvl) demo_args.n)
                (sa_distance_variance s.temperature) rand
                (sa_distance_iteration demo_args.n
                  (selectPoint (rand.lrand48 lvl) demo_args.n)
                  (sa_distance_variance s.temperature) rand s) with
              temperature := (sa_distance_round demo_args rand lvl s).temperature } := rfl
      rw [e, h]
    · intro i hi
      exact sa_distance_round_points_other demo_args rand lvl s i hi
  · intro rand lvl e i hi
    exact sa_energy_round_points_other demo_args rand lvl e i hi

/-- C26, amended.  In `sa_distance` and `sa_energy` the index of the point to perturb is
drawn once per temperature level, by one call of `selectPoint` at the start of the round, and
every inner iteration of that level perturbs the point at that index: the point at any other
index is the same after the round as before. -/
theorem sa_round_index_per_level (globalArgs : globalArgs_t) (rand : rand_t) (lvl : ℕ)
    (s : sa_vars) (e : sa_energy_vars) (i : ℕ)
    (hi : i ≠ selectPoint (rand.lrand48 lvl) globalArgs.n) :
    (sa_distance_round globalArgs rand lvl s).points i = s.points i ∧
      (sa_energy_round globalArgs rand lvl e).points i = e.points i :=
  ⟨sa_distance_round_points_other globalArgs rand lvl s i hi,
    sa_energy_round_points_other globalArgs rand lvl e i hi⟩

/-- The first round of the runs on the antipodal pair draws index `0`; the point at index
`1` is the same after the round. -/
theorem sa_round_index_per_level_witness :
    (sa_distance_round demo_args demo_rand 0 demo_s0).points 1 = demo_s0.points 1 ∧
      (sa_energy_round demo_args demo_rand 0
          (sa_energy_init demo_points demo_args demo_stack)).points 1
        = (sa_energy_init demo_points demo_args demo_stack).points 1 :=
  sa_round_index_per_level demo_args demo_rand 0 demo_s0
    (sa_energy_init demo_points demo_args demo_stack) 1
    (by simp [selectPoint, demo_rand, demo_args])

/-! ## The temperature of the inner iterations -/

/-- C27.  `sa_energy` minimises.  The running best starts at `DBL_MAX`.  In an inner
iteration, when `energy_new < energy_old` the proposal is accepted whatever `drand48()` would
return (the result is the same for every stream of uniform draws); otherwise it is accepted
exactly when the draw is below `expo`.  A best snapshot is taken, `energy_best = energy_new`
and `best_points` a copy of the new `points`, exactly when `energy_new < energy_old` and
`energy_new` is strictly below the running `energy_best`; otherwise both are left as they
are. -/
theorem sa_energy_minimises (n index : ℕ) (variance : ℝ) (rand : rand_t) (s : sa_energy_vars) :
    (∀ (points : vector_array) (globalArgs : globalArgs_t) (stack : stack_t),
        (sa_energy_init points globalArgs stack).energy_best = DBL_MAX) ∧
      ((sphere_rieszEnergy (sa_energy_new_points index variance rand s) n
            < sphere_rieszEnergy s.points n ∧
          (sa_energy_iteration n index variance rand s).points
            = Function.update s.points index (sa_energy_v_new index variance rand s) ∧
          (∃ r : sim_record, (sa_energy_iteration n index variance rand s).log = s.log ++ [r] ∧
            r.accepted = 1) ∧
          ∀ rand' : rand_t, rand'.normalRV = rand.normalRV →
            sa_energy_iteration n index variance rand' s
              = sa_energy_iteration n index variance rand s) ∨
        (¬ sphere_rieszEnergy (sa_energy_new_points index variance rand s) n
            < sphere_rieszEnergy s.points n ∧
          ((rand.drand48 s.iteration
              < expo (sphere_rieszEnergy (sa_energy_new_points index variance rand s) n
                  - sphere_rieszEnergy s.points n) s.temperature ∧
            (sa_energy_iteration n index variance rand s).points
              = Function.update s.points index (sa_energy_v_new index variance rand s) ∧
            ∃ r : sim_record, (sa_energy_iteration n index variance rand s).log = s.log ++ [r] ∧
              r.accepted = 1) ∨
          (¬ rand.drand48 s.iteration
              < expo (sphere_rieszEnergy (sa_energy_new_points index variance rand s) n
                  - sphere_rieszEnergy s.points n) s.temperature ∧
            (sa_energy_iteration n index variance rand s).points = s.points ∧
            ∃ r : sim_record, (sa_energy_iteration n index variance rand s).log = s.log ++ [r] ∧
              r.accepted = 0)))) ∧
      ((sphere_rieszEnergy (sa_energy_new_points index variance rand s) n
            < sphere_rieszEnergy s.points n ∧
          sphere_rieszEnergy (sa_energy_new_points index variance rand s) n < s.energy_best ∧
          (sa_energy_iteration n index variance rand s).energy_best
            = sphere_rieszEnergy (sa_energy_new_points index variance rand s) n ∧
          (sa_energy_iteration n index variance rand s).best_points
            = vector_arrayCopy s.best_points
                (sa_energy_iteration n index variance rand s).points n) ∨
        (¬ (sphere_rieszEnergy (sa_energy_new_points index variance rand s) n
              < sphere_rieszEnergy s.points n ∧
            sphere_rieszEnergy (sa_energy_new_points index variance rand s) n
              < s.energy_best) ∧
          (sa_energy_iteration n index variance rand s).energy_best = s.energy_best ∧
          (sa_energy_iteration n index variance rand s).best_points = s.best_points)) := by
  refine ⟨fun _ _ _ => rfl, ?_, ?_⟩
  · by_cases h1 : sphere_rieszEnergy (sa_energy_new_points index variance rand s) n
        < sphere_rieszEnergy s.points n
    · refine Or.inl ⟨h1, ?_, ?_, ?_⟩
      · unfold sa_energy_new_points sa_energy_v_new at h1
        unfold sa_energy_iteration sa_energy_v_new
        simp only [vector_copy_eq] at h1 ⊢
        rw [if_pos h1]
        split_ifs <;> rfl
      · unfold sa_energy_new_points sa_energy_v_new at h1
        unfold sa_energy_iteration
        simp only [vector_copy_eq] at h1 ⊢
        rw [if_pos h1]
        split_ifs <;> exact ⟨_, rfl, rfl⟩
      · intro rand' hr
        unfold sa_energy_new_points sa_energy_v_new at h1
        unfold sa_energy_iteration
        simp only [vector_copy_eq, hr] at h1 ⊢
        rw [if_pos h1, if_pos h1]
    · refine Or.inr ⟨h1, ?_⟩
      by_cases h3 : rand.drand48 s.iteration
          < expo (sphere_rieszEnergy (sa_energy_new_points index variance rand s) n
              - sphere_rieszEnergy s.points n) s.temperature
      · refine Or.inl ⟨h3, ?_, ?_⟩
        · unfold sa_energy_new_points sa_energy_v_new at h1 h3
          unfold sa_energy_iteration sa_energy_v_new
          simp only [vector_copy_eq] at h1 h3 ⊢
          rw [if_neg h1, if_pos h3]
        · unfold sa_energy_new_points sa_energy_v_new at h1 h3
          unfold sa_energy_iteration
          simp only [vector_copy_eq] at h1 h3 ⊢
          rw [if_neg h1, if_pos h3]
          exact ⟨_, rfl, rfl⟩
      · refine Or.inr ⟨h3, ?_, ?_⟩
        · unfold sa_energy_new_points sa_energy_v_new at h1 h3
          unfold sa_energy_iteration
          simp only [vector_copy_eq] at h1 h3 ⊢
          rw [if_neg h1, if_neg h3]
        · unfold sa_energy_new_points sa_energy_v_new at h1 h3
          unfold sa_energy_iteration
          simp only [vector_copy_eq] at h1 h3 ⊢
          rw [if_neg h1, if_neg h3]
          exact ⟨_, rfl, rfl⟩
  · by_cases h1 : sphere_rieszEnergy (sa_energy_new_points index variance rand s) n
        < sphere_rieszEnergy s.points n
    · by_cases h2 : sphere_rieszEnergy (sa_energy_new_points index variance rand s) n
          < s.energy_best
      · refine Or.inl ⟨h1, h2, ?_, ?_⟩
        · unfold sa_energy_new_points sa_energy_v_new at h1 h2
          unfold sa_energy_iteration sa_energy_new_points sa_energy_v_new
          simp only [vector_copy_eq] at h1 h2 ⊢
          rw [if_pos h1, if_pos h2]
        · unfold sa_energy_new_points sa_energy_v_new at h1 h2
          unfold sa_energy_iteration
          simp only [vector_copy_eq] at h1 h2 ⊢
          rw [if_pos h1, if_pos h2]
      · refine Or.inr ⟨fun h => h2 h.2, ?_, ?_⟩
        · unfold sa_energy_new_points sa_energy_v_new at h1 h2
          unfold sa_energy_iteration
          simp only [vector_copy_eq] at h1 h2 ⊢
          rw [if_pos h1, if_neg h2]
        · unfold sa_energy_new_points sa_energy_v_new at h1 h2
          unfold sa_energy_iteration
          simp only [vector_copy_eq] at h1 h2 ⊢
          rw [if_pos h1, if_neg h2]
    · refine Or.inr ⟨fun h => h1 h.1, ?_, ?_⟩
      · unfold sa_energy_new_points sa_energy_v_new at h1
        unfold sa_energy_iteration
        simp only [vector_copy_eq] at h1 ⊢
        rw [if_neg h1]
        split_ifs <;> rfl
      · unfold sa_energy_new_points sa_energy_v_new at h1
        unfold sa_energy_iteration
        simp only [vector_copy_eq] at h1 ⊢
        rw [if_neg h1]
        split_ifs <;> rfl

/-! ## A run of `sa_distance` with a rejected proposal followed by a change of index -/

/-- The branch of an inner iteration that rejects the proposal. -/
theorem sa_distance_iteration_reject (n index : ℕ) (variance : ℝ) (rand : rand_t) (s : sa_vars)
    (h1 : ¬ sphere_distance (sa_distance_new_points index variance rand s) n
      > sphere_distance s.points n)
    (h3 : ¬ rand.drand48 s.iteration
      < expo (sphere_distance (sa_distance_new_points index variance rand s) n
          - sphere_distance s.points n) s.temperature) :
    sa_distance_iteration n index variance rand s =
      { points := s.points,
        new_points := sa_distance_new_points index variance rand s,
        best_points := s.best_points,
        distance_best := s.distance_best,
        distance_cur := s.distance_cur,
        temperature := s.temperature, iteration := s.iteration + 1,
        log := s.log ++ [⟨s.iteration, s.distance_cur,
          sphere_distance (sa_distance_new_points index variance rand s) n
            - sphere_distance s.points n, s.temperature, variance, 0⟩] } := by
  unfold sa_distance_new_points sa_distance_v_new at h1 h3
  unfold sa_distance_iteration sa_distance_new_points sa_distance_v_new
  simp only [vector_copy_eq] at h1 h3 ⊢
  rw [if_neg h1, if_neg h3]

theorem double_to_int_minus_one (d : ℝ) (h1 : -2 < d) (h2 : d ≤ -1) : double_to_int d = -1 := by
  unfold double_to_int
  rw [if_neg (by linarith), Int.ceil_eq_iff]
  constructor
  · push_cast
    linarith
  · push_cast
    linarith

theorem expo_minus_one (d : ℝ) (h1 : -2 < d) (h2 : d ≤ -1) : expo d 1 = Real.exp (-1) := by
  unfold expo
  rw [double_to_int_minus_one d h1 h2]
  congr 1
  simp only [abs_int, BOLTZMANN_CONSTANT]
  norm_num

theorem exp_minus_one_le_half : Real.exp (-1) ≤ 1 / 2 := by
  have h : (1 : ℝ) + 1 ≤ Real.exp 1 := Real.add_one_le_exp 1
  rw [Real.exp_neg, inv_eq_one_div]
  exact one_div_le_one_div_of_le (by norm_num) (by linarith)

theorem stale_walk_1 :
    sphere_walk ⟨1, 0, 0⟩ (demo_sigma * demo_sigma) (-1 / demo_sigma) (1 / demo_sigma) 0
      = ⟨0, 1, 0⟩ := by
  have hne : demo_sigma ≠ 0 := demo_sigma_pos.ne'
  have hv : sphere_walk_vector ⟨1, 0, 0⟩ (demo_sigma * demo_sigma) (-1 / demo_sigma)
      (1 / demo_sigma) 0 = ⟨0, 1, 0⟩ := by
    have h1 : -1 / demo_sigma * demo_sigma = -1 := by field_simp
    have h2 : 1 / demo_sigma * demo_sigma = 1 := by field_simp
    simp only [sphere_walk_vector, demo_sigma_sqrt, h1, h2]
    norm_num
  rw [sphere_walk, hv]
  apply vector_normalise_of_unit
  simp [vector_dotProduct]

theorem stale_distance_same : distance ⟨0, 1, 0⟩ ⟨0, 1, 0⟩ = 0 := by
  simp [distance, euclideanDistance, vector_dotProduct]

theorem stale_s0_new_points_1 : stale_s0.new_points 1 = ⟨0, 1, 0⟩ := by
  simp [stale_s0, sa_init, vector_arrayCopy_apply, stale_args, stale_points]

theorem stale_v_new_1 : sa_distance_v_new 0 demo_sigma stale_rand stale_s0 = ⟨0, 1, 0⟩ := by
  have h : sa_distance_v_new 0 demo_sigma stale_rand stale_s0
      = sphere_walk ⟨1, 0, 0⟩ (demo_sigma * demo_sigma) (-1 / demo_sigma) (1 / demo_sigma) 0 := by
    simp [sa_distance_v_new, stale_s0, sa_init, stale_points, stale_rand]
  rw [h, stale_walk_1]

theorem stale_distance_new_1 :
    sphere_distance (sa_distance_new_points 0 demo_sigma stale_rand stale_s0) 2 = 0 := by
  rw [sphere_distance_two, sa_distance_new_points, stale_v_new_1, Function.update_same,
    Function.update_noteq (by decide), stale_s0_new_points_1, stale_distance_same]

theorem stale_distance_old_1 : sphere_distance stale_s0.points 2 = Real.sqrt 2 := by
  rw [sphere_distance_two]
  exact demo_distance_mid

/-- The proposal of the first round is rejected: `points` is unchanged, and the rejected
vector `(0, 1, 0)` stays in `new_points[0]`. -/
theorem stale_i1_eq :
    stale_i1 =
      { points := stale_s0.points,
        new_points := Function.update stale_s0.new_points 0 ⟨0, 1, 0⟩,
        best_points := stale_s0.best_points,
        distance_best := stale_s0.distance_best,
        distance_cur := stale_s0.distance_cur,
        temperature := stale_s0.temperature, iteration := stale_s0.iteration + 1,
        log := stale_s0.log ++ [⟨stale_s0.iteration, stale_s0.distance_cur, 0 - Real.sqrt 2,
          stale_s0.temperature, demo_sigma, 0⟩] } := by
  have hlt : Real.sqrt 2 < 2 := demo_sqrt_lt_two 2 (by norm_num) (by norm_num)
  have hgt : 1 < Real.sqrt 2 := demo_sqrt_two_gt
  have h1 : ¬ sphere_distance (sa_distance_new_points 0 demo_sigma stale_rand stale_s0) 2
      > sphere_distance stale_s0.points 2 := by
    rw [stale_distance_new_1, stale_distance_old_1]
    exact not_lt.mpr (Real.sqrt_nonneg 2)
  have h3 : ¬ stale_rand.drand48 stale_s0.iteration
      < expo (sphere_distance (sa_distance_new_points 0 demo_sigma stale_rand stale_s0) 2
          - sphere_distance stale_s0.points 2) stale_s0.temperature := by
    rw [stale_distance_new_1, stale_distance_old_1]
    have ht : stale_s0.temperature = 1 := rfl
    rw [ht, expo_minus_one _ (by linarith) (by linarith)]
    have hd : stale_rand.drand48 stale_s0.iteration = 1 / 2 := rfl
    rw [hd]
    exact not_lt.mpr exp_minus_one_le_half
  rw [stale_i1, sa_distance_iteration_reject 2 0 demo_sigma stale_rand stale_s0 h1 h3,
    stale_distance_new_1, stale_distance_old_1]
  simp only [sa_distance_new_points, stale_v_new_1]

theorem stale_s1_eq :
    stale_s1 = { stale_i1 with temperature := anneal stale_i1.temperature (3 / 10) } := rfl

theorem stale_s1_temperature : stale_s1.temperature = anneal 1 (3 / 10) :=
  sa_distance_round_temperature stale_args stale_rand 0 stale_s0

theorem stale_s1_points : stale_s1.points = stale_points := by
  rw [stale_s1_eq]
  simp only []
  rw [stale_i1_eq]
  rfl

theorem stale_s1_new_points_0 : stale_s1.new_points 0 = ⟨0, 1, 0⟩ := by
  rw [stale_s1_eq]
  simp only []
  rw [stale_i1_eq]
  simp

/-- C21 (the code departs from it).  In the run of `stale_args`, the proposal `(0, 1, 0)`
for index `0` is rejected in the first round; the loop goes on, and the second round selects
index `1`.  When its inner iteration evaluates the objective, the candidate `new_points`
still holds the rejected `(0, 1, 0)` at index `0`, where the current configuration `points`
holds `(1, 0, 0)`. -/
theorem sa_distance_stale_candidate :
    (∃ r : sim_record, stale_s1.log = [r] ∧ r.accepted = 0) ∧
      T_MIN < stale_s1.temperature ∧
      selectPoint (stale_rand.lrand48 1) stale_args.n = 1 ∧
      sa_distance_new_points 1 (sa_distance_variance stale_s1.temperature) stale_rand stale_s1 0
        = ⟨0, 1, 0⟩ ∧
      stale_s1.points 0 = ⟨1, 0, 0⟩ ∧
      sa_distance_new_points 1 (sa_distance_variance stale_s1.temperature) stale_rand stale_s1 0
        ≠ stale_s1.points 0 := by
  have hc : sa_distance_new_points 1 (sa_distance_variance stale_s1.temperature) stale_rand
      stale_s1 0 = ⟨0, 1, 0⟩ := by
    rw [sa_distance_new_points, Function.update_noteq (by decide), stale_s1_new_points_0]
  have hp : stale_s1.points 0 = ⟨1, 0, 0⟩ := by
    rw [stale_s1_points]
    rfl
  refine ⟨?_, ?_, rfl, hc, hp, ?_⟩
  · rw [stale_s1_eq]
    simp only []
    rw [stale_i1_eq]
    exact ⟨_, rfl, rfl⟩
  · rw [stale_s1_temperature]
    unfold anneal T_MIN
    norm_num
  · rw [hc, hp]
    intro h
    have hx := congrArg vector_t.x h
    simp at hx

theorem expo_pos (delta temperature : ℝ) : 0 < expo delta temperature := Real.exp_pos _

theorem sphere_selectClosest_two (points : vector_array) (g1 g2 : ℤ)
    (h : distance (points 0) (points 1) < DBL_MAX) :
    sphere_selectClosest points 2 g1 g2 = (0, 1) := by
  simp [sphere_selectClosest, List.range_succ, List.range', h]

/-- An inner iteration of `sa_closeness` in which `drand48()` would return `0` accepts the
proposal, whichever branch it takes: the two stores into `points` copy the never-written
array `v_new`, and the candidate keeps the points computed by `sphere_moveApart`. -/
theorem sa_closeness_iteration_zero_draw (n : ℕ) (index_min : ℤ × ℤ) (variance : ℝ)
    (v_new_0 v_new_1 : vector_t) (rand : rand_t) (s : sa_vars)
    (h : rand.drand48 s.iteration = 0) :
    (sa_closeness_iteration n index_min variance v_new_0 v_new_1 rand s).points
        = Function.update (Function.update s.points index_min.1.toNat v_new_0)
            index_min.2.toNat v_new_1 ∧
      (sa_closeness_iteration n index_min variance v_new_0 v_new_1 rand s).new_points
        = Function.update
            (Function.update (vector_arrayCopy s.new_points s.points n) index_min.1.toNat
              (sphere_moveApart (vector_arrayCopy s.new_points s.points n index_min.1.toNat)
                (vector_arrayCopy s.new_points s.points n index_min.2.toNat) variance).1)
            index_min.2.toNat
            (sphere_moveApart (vector_arrayCopy s.new_points s.points n index_min.1.toNat)
              (vector_arrayCopy s.new_points s.points n index_min.2.toNat) variance).2 ∧
      ∃ r : sim_record,
        (sa_closeness_iteration n index_min variance v_new_0 v_new_1 rand s).log = s.log ++ [r] ∧
          r.accepted = 1 := by
  unfold sa_closeness_iteration
  simp only [vector_copy_eq]
  split_ifs with h1 h2 h3
  · exact ⟨rfl, rfl, _, rfl, rfl⟩
  · exact ⟨rfl, rfl, _, rfl, rfl⟩
  · exact ⟨rfl, rfl, _, rfl, rfl⟩
  · exfalso
    rw [h] at h3
    exact h3 (expo_pos _ _)

theorem vector_normalise_y_axis (y : ℝ) (hy : 0 < y) :
    vector_normalise ⟨0, y, 0⟩ = ⟨0, 1, 0⟩ ∧ vector_normalise ⟨0, -y, 0⟩ = ⟨0, -1, 0⟩ := by
  have h1 : Real.sqrt (vector_dotProduct ⟨0, y, 0⟩ ⟨0, y, 0⟩) = y := by
    simp only [vector_dotProduct]
    rw [mul_zero, zero_add, add_zero, Real.sqrt_mul_self hy.le]
  have h2 : Real.sqrt (vector_dotProduct ⟨0, -y, 0⟩ ⟨0, -y, 0⟩) = y := by
    simp only [vector_dotProduct]
    rw [mul_zero, zero_add, add_zero, neg_mul_neg, Real.sqrt_mul_self hy.le]
  have hne : y ≠ 0 := hy.ne'
  constructor
  · simp only [vector_normalise, h1]
    have e : y * (1 / y) = 1 := by field_simp
    rw [e, zero_mul]
  · simp only [vector_normalise, h2]
    have e : -y * (1 / y) = -1 := by field_simp
    rw [e, zero_mul]

theorem closeness_moved :
    sphere_moveApart ⟨0, -1, 0⟩ ⟨0, 1, 0⟩ 0.01 = (⟨0, -1, 0⟩, ⟨0, 1, 0⟩) := by
  have ha : (sphere_moveApart_vectors ⟨0, -1, 0⟩ ⟨0, 1, 0⟩ 0.01).1 = ⟨0, -(302 / 100), 0⟩ := by
    simp only [sphere_moveApart_vectors]
    norm_num
  have hb : (sphere_moveApart_vectors ⟨0, -1, 0⟩ ⟨0, 1, 0⟩ 0.01).2 = ⟨0, 102 / 100, 0⟩ := by
    simp only [sphere_moveApart_vectors]
    norm_num
  rw [sphere_moveApart_eq, ha, hb, (vector_normalise_y_axis (302 / 100) (by norm_num)).2,
    (vector_normalise_y_axis (102 / 100) (by norm_num)).1]

theorem closeness_select :
    sphere_selectClosest (sa_init demo_points closeness_args demo_stack).points closeness_args.n
      demo_stack.index_min_1 demo_stack.index_min_2 = (0, 1) := by
  apply sphere_selectClosest_two
  have h : distance ((sa_init demo_points closeness_args demo_stack).points 0)
      ((sa_init demo_points closeness_args demo_stack).points 1) = 2 := demo_distance_start
  rw [h]
  exact two_lt_DBL_MAX

/-- C23 (the code departs from it).  `sa_closeness` run on the antipodal pair with the
parameters `closeness_args`: the closest pair is `(0, 1)`, the proposal of the single inner
iteration is accepted, and the candidate `new_points` holds the two points computed by
`sphere_moveApart`, `(0, -1, 0)` and `(0, 1, 0)`; but the two points of the current
configuration are overwritten with the content of the never-written array `v_new` (here
zeros), not with the points of the candidate. -/
theorem sa_closeness_accept_copies_v_new :
    sphere_selectClosest demo_points closeness_args.n demo_stack.index_min_1
        demo_stack.index_min_2 = (0, 1) ∧
      sphere_moveApart (demo_points 0) (demo_points 1) 0.01 = (⟨0, -1, 0⟩, ⟨0, 1, 0⟩) ∧
      ∃ s : sa_vars, sa_closeness demo_points closeness_args demo_stack demo_rand 1 = some s ∧
        (∃ r : sim_record, s.log = [r] ∧ r.accepted = 1) ∧
        s.new_points 0 = ⟨0, -1, 0⟩ ∧ s.new_points 1 = ⟨0, 1, 0⟩ ∧
        s.points 0 = demo_stack.v_new_0 ∧ s.points 1 = demo_stack.v_new_1 ∧
        s.points 0 = ⟨0, 0, 0⟩ ∧ s.points 1 = ⟨0, 0, 0⟩ ∧
        s.points 0 ≠ s.new_points 0 ∧ s.points 1 ≠ s.new_points 1 := by
  have hround : sa_closeness_round closeness_args demo_stack demo_rand
      (sa_init demo_points closeness_args demo_stack)
      = { sa_closeness_iteration 2 (0, 1) 0.01 demo_stack.v_new_0 demo_stack.v_new_1 demo_rand
            (sa_init demo_points closeness_args demo_stack) with
          temperature := anneal (sa_closeness_iteration 2 (0, 1) 0.01 demo_stack.v_new_0
            demo_stack.v_new_1 demo_rand
            (sa_init demo_points closeness_args demo_stack)).temperature (1 / 20) } := by
    have e : sa_closeness_round closeness_args demo_stack demo_rand
        (sa_init demo_points closeness_args demo_stack)
        = { sa_closeness_iteration 2
              (sphere_selectClosest (sa_init demo_points closeness_args demo_stack).points
                closeness_args.n demo_stack.index_min_1 demo_stack.index_min_2)
              0.01 demo_stack.v_new_0 demo_stack.v_new_1 demo_rand
              (sa_init demo_points closeness_args demo_stack) with
            temperature := anneal (sa_closeness_iteration 2
              (sphere_selectClosest (sa_init demo_points closeness_args demo_stack).points
                closeness_args.n demo_stack.index_min_1 demo_stack.index_min_2)
              0.01 demo_stack.v_new_0 demo_stack.v_new_1 demo_rand
              (sa_init demo_points closeness_args demo_stack)).temperature (1 / 20) } := rfl
    rw [e, closeness_select]
  obtain ⟨hp, hnp, r, hr, hacc⟩ := sa_closeness_iteration_zero_draw 2 (0, 1) 0.01
    demo_stack.v_new_0 demo_stack.v_new_1 demo_rand
    (sa_init demo_points closeness_args demo_stack) rfl
  have hc0 : vector_arrayCopy (sa_init demo_points closeness_args demo_stack).new_points
      (sa_init demo_points closeness_args demo_stack).points 2 0 = ⟨0, -1, 0⟩ := by
    rw [vector_arrayCopy_apply, if_pos (by decide)]
    rfl
  have hc1 : vector_arrayCopy (sa_init demo_points closeness_args demo_stack).new_points
      (sa_init demo_points closeness_args demo_stack).points 2 1 = ⟨0, 1, 0⟩ := by
    rw [vector_arrayCopy_apply, if_pos (by decide)]
    rfl
  have ht0 : ((0 : ℤ), (1 : ℤ)).1.toNat = 0 := rfl
  have ht1 : ((0 : ℤ), (1 : ℤ)).2.toNat = 1 := rfl
  rw [ht0, ht1] at hp hnp
  rw [hc0, hc1, closeness_moved] at hnp
  have hn0 : (sa_closeness_round closeness_args demo_stack demo_rand
      (sa_init demo_points closeness_args demo_stack)).new_points 0 = ⟨0, -1, 0⟩ := by
    rw [hround]
    simp only []
    rw [hnp, Function.update_noteq (by decide), Function.update_same]
  have hn1 : (sa_closeness_round closeness_args demo_stack demo_rand
      (sa_init demo_points closeness_args demo_stack)).new_points 1 = ⟨0, 1, 0⟩ := by
    rw [hround]
    simp only []
    rw [hnp, Function.update_same]
  have hp0 : (sa_closeness_round closeness_args demo_stack demo_rand
      (sa_init demo_points closeness_args demo_stack)).points 0 = demo_stack.v_new_0 := by
    rw [hround]
    simp only []
    rw [hp, Function.update_noteq (by decide), Function.update_same]
  have hp1 : (sa_closeness_round closeness_args demo_stack demo_rand
      (sa_init demo_points closeness_args demo_stack)).points 1 = demo_stack.v_new_1 := by
    rw [hround]
    simp only []
    rw [hp, Function.update_same]
  refine ⟨closeness_select, closeness_moved, sa_closeness_round closeness_args demo_stack
      demo_rand (sa_init demo_points closeness_args demo_stack),
    sa_closeness_loop_one closeness_args demo_stack demo_rand 0 _ demo_anneal,
    ?_, hn0, hn1, hp0, hp1, ?_, ?_, ?_, ?_⟩
  · rw [hround]
    simp only []
    rw [hr]
    exact ⟨r, rfl, hacc⟩
  · rw [hp0]
    rfl
  · rw [hp1]
    rfl
  · rw [hp0, hn0]
    intro h
    have hy := congrArg vector_t.y h
    simp [demo_stack] at hy
  · rw [hp1, hn1]
    intro h
    have hy := congrArg vector_t.y h
    simp [demo_stack] at hy

end SaSphere
